import Mathlib

/-!
# pod: polling a pet tracker API into a time-series database

A shallow embedding of `pod.go`: the record types with their JSON field names,
the two HTTP helpers `marshalGetUnmarshal` and `getUnmarshalAuth`, and `main`
with its one-minute poll loop.

What the program takes from its libraries is modelled as follows.

* A JSON body is given as a syntax tree (`JValue`); a body that is not valid
  JSON is `none`. Number tokens keep their text and string tokens their
  content.
* The readers of scalar tokens (`strconv.ParseInt`, `strconv.ParseFloat`,
  `time.Time.UnmarshalJSON`) and the validation done by `client.NewPoint` are
  the fields of a `Lib` record, which every definition takes as an argument.
* The outside world (environment variables, HTTP answers, the wall clock, the
  database) is a `World` record. What the process does to it is a list of
  `Event`s.
-/

namespace PodTracker

/-! ## Time and numbers -/

/-- An instant, as nanoseconds since the Unix epoch. The location and the
monotonic reading that a Go `time.Time` also carries are not modelled: the
program only subtracts instants, and one operand always comes from JSON and
has no monotonic reading. -/
structure Time where
  unixNano : Int
deriving DecidableEq, Repr

/-- The zero value of `time.Time`: January 1, year 1, 00:00:00 UTC. -/
def Time.zero : Time := ⟨-62135596800 * 1000000000⟩

/-- Largest `time.Duration` (an int64 count of nanoseconds). -/
def maxDuration : Int := 2 ^ 63 - 1

/-- Smallest `time.Duration`. -/
def minDuration : Int := -(2 ^ 63)

/-- `t.Sub(u)`: the difference in nanoseconds, or the largest (smallest)
duration when the difference does not fit an int64. -/
def Time.Sub (t u : Time) : Int :=
  let d := t.unixNano - u.unixNano
  if d > maxDuration then maxDuration
  else if d < minDuration then minDuration
  else d

/-- A float64, given by its IEEE 754 bit pattern. The program never computes
with the floats it decodes, it only hands them on. -/
structure Float64 where
  bits : Nat
deriving DecidableEq, Repr

/-- The zero value `0.0`. -/
def Float64.zero : Float64 := ⟨0⟩

/-! ## The records of `pod.go` -/

structure LoginRequest where
  Email : String
  Password : String
deriving DecidableEq, Repr

structure LoginResponse where
  UserID : String
  Email : String
  Expires : Time
  Token : String
deriving DecidableEq, Repr

structure Battery where
  Status : String
  Value : Int
  Remaining : Int
deriving DecidableEq, Repr

structure Pod where
  Battery : Battery
deriving DecidableEq, Repr

structure Location where
  Timestamp : Time
  Latitude : Float64
  Longitude : Float64
  Accuracy : Float64
deriving DecidableEq, Repr

structure Pet where
  ID : String
  Name : String
  /-- The Go field `Type`, a reserved word here. -/
  Type_ : String
  Pod : Pod
  Location : Location
deriving DecidableEq, Repr

/-- A Go slice of `*Pet`: the visible elements, and what the backing array
still holds behind them (`spare`). A nil pointer is `none`. The spare part
matters only to a decoder that fills the same slice more than once. -/
structure PetSlice where
  elems : List (Option Pet)
  spare : List (Option Pet)
deriving DecidableEq, Repr

structure FullResponse where
  Pets : PetSlice
deriving DecidableEq, Repr

/-- Zero value of `LoginResponse`. -/
def LoginResponse.zero : LoginResponse := ⟨"", "", Time.zero, ""⟩

/-- Zero value of `Battery`. -/
def Battery.zero : Battery := ⟨"", 0, 0⟩

/-- Zero value of `Location`. -/
def Location.zero : Location := ⟨Time.zero, Float64.zero, Float64.zero, Float64.zero⟩

/-- Zero value of `Pet`. -/
def Pet.zero : Pet := ⟨"", "", "", ⟨Battery.zero⟩, Location.zero⟩

/-- Zero value of `FullResponse`: a nil slice. -/
def FullResponse.zero : FullResponse := ⟨⟨[], []⟩⟩

/-! ## Points -/

/-- A field value handed to `client.NewPoint`. `seconds d` is the float64
that `Duration.Seconds()` returns for a duration of `d` nanoseconds; the
conversion itself is floating-point arithmetic and is left uncomputed. -/
inductive FieldValue where
  | float (x : Float64)
  | int (n : Int)
  | seconds (d : Int)
deriving DecidableEq, Repr

/-- A point, as the four arguments of `client.NewPoint`. The two map literals
are kept as association lists in the order of the source; their keys are
distinct. -/
structure Point where
  name : String
  tags : List (String × String)
  fields : List (String × FieldValue)
  time : Time
deriving DecidableEq, Repr

/-! ## JSON -/

/-- A JSON document. Object members are kept in the order of the text, and a
key may occur more than once. A number is given by the text of its token. A
string is given by its content, and string tokens are taken to be written
without escape sequences; this matters only where a string is read as a
time, which is done on the token as written. -/
inductive JValue where
  | null
  | bool (b : Bool)
  | num (literal : String)
  | str (s : String)
  | arr (items : List JValue)
  | obj (members : List (String × JValue))

/-- The library functions the program relies on. -/
structure Lib where
  /-- The reading `strconv.ParseInt(literal, 10, 64)` of a number token. -/
  parseInt : String → Option Int
  /-- The reading `strconv.ParseFloat(literal, 64)` of a number token. -/
  parseFloat : String → Option Float64
  /-- The instant `time.Time.UnmarshalJSON` reads from a string token. -/
  parseTime : String → Option Time
  /-- Whether `client.NewPoint` accepts its arguments. -/
  newPoint : Point → Bool

/-- Case folding of one character of an object key, as far as it can matter
against the field names of this program, which are ASCII letters: lower case
ASCII goes to upper case, and the Kelvin sign and the long s go to K and S. -/
def foldChar (c : Char) : Char :=
  if 97 ≤ c.toNat ∧ c.toNat ≤ 122 then Char.ofNat (c.toNat - 32)
  else if c.toNat = 0x212A then Char.ofNat 75
  else if c.toNat = 0x017F then Char.ofNat 83
  else c

/-- Folded form of a key or field name. -/
def foldName (s : String) : List Char := s.toList.map foldChar

/-- Whether object key `key` selects the struct field with JSON name `name`.
`encoding/json` prefers an exact match and falls back to a match under case
folding; within each struct of this program the folded names are distinct,
so both select the same field. -/
def selects (name key : String) : Bool := foldName key == foldName name

/-- Outcome of decoding into a Go value: the value afterwards, whether a
type mismatch was recorded (decoding goes on after it), and whether an
`Unmarshaler` failed (decoding stops there). `json.Unmarshal` returns an
error when either flag is set. -/
structure Decoded (α : Type) where
  value : α
  saved : Bool
  abort : Bool
deriving DecidableEq, Repr

/-- Decoding that leaves `a` and records nothing. -/
def Decoded.ok {α : Type} (a : α) : Decoded α := ⟨a, false, false⟩

/-- Decoding that leaves `a` and records a type mismatch. -/
def Decoded.mismatch {α : Type} (a : α) : Decoded α := ⟨a, true, false⟩

/-- Decoding that leaves `a` and stops with an error. -/
def Decoded.stop {α : Type} (a : α) : Decoded α := ⟨a, false, true⟩

/-- Put a decoded field back into its struct. -/
def Decoded.store {α β : Type} (d : Decoded α) (f : α → β) : Decoded β :=
  ⟨f d.value, d.saved, d.abort⟩

/-- Whether `json.Unmarshal` reports an error. -/
def Decoded.failed {α : Type} (d : Decoded α) : Bool := d.saved || d.abort

/-- Decode into a `string`. -/
def decodeString (v : JValue) (cur : String) : Decoded String :=
  match v with
  | .null => .ok cur
  | .str s => .ok s
  | _ => .mismatch cur

/-- Decode into an `int`. -/
def decodeInt (lib : Lib) (v : JValue) (cur : Int) : Decoded Int :=
  match v with
  | .null => .ok cur
  | .num l =>
    match lib.parseInt l with
    | some n => .ok n
    | none => .mismatch cur
  | _ => .mismatch cur

/-- Decode into a `float64`. -/
def decodeFloat (lib : Lib) (v : JValue) (cur : Float64) : Decoded Float64 :=
  match v with
  | .null => .ok cur
  | .num l =>
    match lib.parseFloat l with
    | some x => .ok x
    | none => .mismatch cur
  | _ => .mismatch cur

/-- Decode into a `time.Time`, through its `UnmarshalJSON`: null is ignored,
anything that is not a string the parser accepts is an error that stops the
decoder. -/
def decodeTime (lib : Lib) (v : JValue) (cur : Time) : Decoded Time :=
  match v with
  | .null => .ok cur
  | .str s =>
    match lib.parseTime s with
    | some t => .ok t
    | none => .stop cur
  | _ => .stop cur

/-- Decode the members of an object into a struct, one after the other;
`setField key value cur` decodes one member. -/
def decodeMembers {α : Type} (setField : String → JValue → α → Decoded α) :
    List (String × JValue) → α → Decoded α
  | [], cur => .ok cur
  | (k, v) :: rest, cur =>
    let r := setField k v cur
    if r.abort then r
    else
      let r2 := decodeMembers setField rest r.value
      ⟨r2.value, r.saved || r2.saved, r2.abort⟩

/-- Decode into a struct: null is ignored, an object is decoded member by
member, anything else is a type mismatch. -/
def decodeStruct {α : Type} (setField : String → JValue → α → Decoded α)
    (v : JValue) (cur : α) : Decoded α :=
  match v with
  | .null => .ok cur
  | .obj ms => decodeMembers setField ms cur
  | _ => .mismatch cur

/-- One member of a login response. The tag of `Expires` is written
`json"expires"` without the colon, so it is no tag at all and the field goes
by its Go name `Expires`. -/
def LoginResponse.setField (lib : Lib) (k : String) (v : JValue)
    (cur : LoginResponse) : Decoded LoginResponse :=
  if selects "userId" k then (decodeString v cur.UserID).store (fun x => { cur with UserID := x })
  else if selects "email" k then (decodeString v cur.Email).store (fun x => { cur with Email := x })
  else if selects "Expires" k then
    (decodeTime lib v cur.Expires).store (fun x => { cur with Expires := x })
  else if selects "token" k then (decodeString v cur.Token).store (fun x => { cur with Token := x })
  else .ok cur

/-- One member of a `Battery`. -/
def Battery.setField (lib : Lib) (k : String) (v : JValue) (cur : Battery) : Decoded Battery :=
  if selects "status" k then (decodeString v cur.Status).store (fun x => { cur with Status := x })
  else if selects "value" k then (decodeInt lib v cur.Value).store (fun x => { cur with Value := x })
  else if selects "remaining" k then
    (decodeInt lib v cur.Remaining).store (fun x => { cur with Remaining := x })
  else .ok cur

/-- One member of a `Pod`. -/
def Pod.setField (lib : Lib) (k : String) (v : JValue) (cur : Pod) : Decoded Pod :=
  if selects "batteryInfo" k then
    (decodeStruct (Battery.setField lib) v cur.Battery).store (fun x => { cur with Battery := x })
  else .ok cur

/-- One member of a `Location`. -/
def Location.setField (lib : Lib) (k : String) (v : JValue) (cur : Location) :
    Decoded Location :=
  if selects "timestamp" k then
    (decodeTime lib v cur.Timestamp).store (fun x => { cur with Timestamp := x })
  else if selects "lat" k then
    (decodeFloat lib v cur.Latitude).store (fun x => { cur with Latitude := x })
  else if selects "lon" k then
    (decodeFloat lib v cur.Longitude).store (fun x => { cur with Longitude := x })
  else if selects "accuracy" k then
    (decodeFloat lib v cur.Accuracy).store (fun x => { cur with Accuracy := x })
  else .ok cur

/-- One member of a `Pet`. -/
def Pet.setField (lib : Lib) (k : String) (v : JValue) (cur : Pet) : Decoded Pet :=
  if selects "id" k then (decodeString v cur.ID).store (fun x => { cur with ID := x })
  else if selects "name" k then (decodeString v cur.Name).store (fun x => { cur with Name := x })
  else if selects "type" k then (decodeString v cur.Type_).store (fun x => { cur with Type_ := x })
  else if selects "pod" k then
    (decodeStruct (Pod.setField lib) v cur.Pod).store (fun x => { cur with Pod := x })
  else if selects "location" k then
    (decodeStruct (Location.setField lib) v cur.Location).store
      (fun x => { cur with Location := x })
  else .ok cur

/-- Decode into a `*Pet`: null makes the pointer nil; anything else decodes
into the pet pointed to, allocating a zero `Pet` when the pointer is nil. -/
def decodePetPtr (lib : Lib) (v : JValue) (cur : Option Pet) : Decoded (Option Pet) :=
  match v with
  | .null => .ok none
  | .obj ms => (decodeMembers (Pet.setField lib) ms (cur.getD Pet.zero)).store some
  | _ => .mismatch (some (cur.getD Pet.zero))

/-- Decode the items of an array into the slots of a backing array, from the
front: the decoded elements, and the slots behind them that were not
reached. A slot beyond the backing array is a fresh nil pointer. -/
def decodeItems (lib : Lib) :
    List JValue → List (Option Pet) → Decoded (List (Option Pet) × List (Option Pet))
  | [], backing => .ok ([], backing)
  | v :: vs, backing =>
    let r := decodePetPtr lib v (backing.headD none)
    if r.abort then ⟨([r.value], backing.tail), r.saved, true⟩
    else
      let r2 := decodeItems lib vs backing.tail
      ⟨(r.value :: r2.value.1, r2.value.2), r.saved || r2.saved, r2.abort⟩

/-- Decode into a `[]*Pet`: null makes the slice nil, an empty array makes
it a new empty slice, a non-empty array is decoded element by element over
the backing array of the slice, anything else is a type mismatch. The slice
ends at the last decoded element, unless decoding stopped early inside a
slice that was longer already. -/
def decodePets (lib : Lib) (v : JValue) (cur : PetSlice) : Decoded PetSlice :=
  match v with
  | .null => .ok ⟨[], []⟩
  | .arr [] => .ok ⟨[], []⟩
  | .arr items =>
    let r := decodeItems lib items (cur.elems ++ cur.spare)
    let n := if r.abort then max r.value.1.length cur.elems.length else r.value.1.length
    r.store (fun p => ⟨(p.1 ++ p.2).take n, (p.1 ++ p.2).drop n⟩)
  | _ => .mismatch cur

/-- One member of a `FullResponse`. -/
def FullResponse.setField (lib : Lib) (k : String) (v : JValue) (cur : FullResponse) :
    Decoded FullResponse :=
  if selects "pets" k then (decodePets lib v cur.Pets).store (fun x => { cur with Pets := x })
  else .ok cur

/-- Decode a whole document into a `LoginResponse`. -/
def decodeLoginResponse (lib : Lib) (v : JValue) (cur : LoginResponse) :
    Decoded LoginResponse :=
  decodeStruct (LoginResponse.setField lib) v cur

/-- Decode a whole document into a `FullResponse`. -/
def decodeFullResponse (lib : Lib) (v : JValue) (cur : FullResponse) : Decoded FullResponse :=
  decodeStruct (FullResponse.setField lib) v cur

/-! ## The outside world -/

/-- The errors the two HTTP helpers return. -/
inductive GoError where
  | transport
  | malformed
  | decode
deriving DecidableEq, Repr

/-- What comes back from an HTTP request: no answer (the request or the
reading of the body failed), or a status code and a body, `none` when the
body is not valid JSON. -/
inductive Exchange where
  | failed
  | answered (status : Nat) (body : Option JValue)

/-- Everything outside the process. -/
structure World where
  /-- Value of an environment variable. -/
  getenv : String → String
  /-- Answer to the POST of `request` to `url`. -/
  post : String → LoginRequest → Exchange
  /-- Answer to the GET of poll cycle `k` to `url` with header `authorization`. -/
  get : Nat → String → String → Exchange
  /-- Successive readings of the wall clock by `time.Since` and `time.Now`
  in `main`. -/
  now : Nat → Time
  /-- Whether `client.NewHTTPClient` accepts the address. -/
  newHTTPClient : String → Bool
  /-- Whether `client.NewBatchPoints` succeeds in poll cycle `k`. -/
  newBatchPoints : Nat → Bool
  /-- Whether the write of poll cycle `k` succeeds. -/
  write : Nat → List Point → Bool

/-- What the process does that can be seen from outside. -/
inductive Event where
  | post (url : String) (request : LoginRequest)
  | get (url : String) (authorization : String)
  | info (msg : String)
  | fatal (msg : String)
  | write (database precision : String) (points : List Point)
deriving DecidableEq, Repr

/-- How a piece of the program ends: it goes on with a new state, it logs at
fatal level and exits, or it panics on a nil pointer. -/
inductive Step (σ : Type) where
  | next (s : σ)
  | fatal (msg : String)
  | panic
deriving DecidableEq, Repr

/-- The call `json.Unmarshal(body, response)`: the error and the value
`response` points to afterwards. A body that is not valid JSON is refused
before anything is stored. -/
def unmarshal {α : Type} (decode : JValue → α → Decoded α) (body : Option JValue) (cur : α) :
    Option GoError × α :=
  match body with
  | none => (some .malformed, cur)
  | some v =>
    let r := decode v cur
    (if r.failed then some .decode else none, r.value)

/-- The helper `marshalGetUnmarshal`, called with a `*LoginResponse`: the
error it returns and the response afterwards. The status code of the answer
is not looked at. -/
def marshalGetUnmarshal (lib : Lib) (w : World) (url : String) (request : LoginRequest)
    (response : LoginResponse) : Option GoError × LoginResponse :=
  match w.post url request with
  | .failed => (some .transport, response)
  | .answered _ body => unmarshal (decodeLoginResponse lib) body response

/-- The helper `getUnmarshalAuth`, called in poll cycle `k` with a
`*FullResponse`. -/
def getUnmarshalAuth (lib : Lib) (w : World) (k : Nat) (url : String) (authorization : String)
    (response : FullResponse) : Option GoError × FullResponse :=
  match w.get k url authorization with
  | .failed => (some .transport, response)
  | .answered _ body => unmarshal (decodeFullResponse lib) body response

/-! ## `main` -/

/-- The login endpoint. -/
def loginURL : String := "https://api.podtrackers.net/pod/v3/authenticate/login"

/-- The roster endpoint. -/
def fullURL : String := "https://api.podtrackers.net/pod/v3/users/me/full"

/-- State of the loop over the pets: how many clock readings have been
taken, and the points added to `bp` so far. -/
structure LoopState where
  clock : Nat
  bp : List Point
deriving DecidableEq, Repr

/-- Arguments of the first `client.NewPoint` of the loop body, for a pet
that is not nil, when `clock` readings of the clock have been taken before:
`time.Since` takes one reading for the age, `time.Now()` the next one for the
timestamp of the point. -/
def locationPoint (w : World) (clock : Nat) (pet : Pet) : Point :=
  let tags := [("id", pet.ID), ("name", pet.Name)]
  let fields := [
    ("latitude", FieldValue.float pet.Location.Latitude),
    ("longitude", FieldValue.float pet.Location.Longitude),
    ("accuracy", FieldValue.float pet.Location.Accuracy),
    ("age", FieldValue.seconds ((w.now clock).Sub pet.Location.Timestamp))]
  ⟨"location", tags, fields, w.now (clock + 1)⟩

/-- Arguments of the second `client.NewPoint` of the loop body; its
`time.Now()` is the third reading of the clock in the loop body. -/
def batteryPoint (w : World) (clock : Nat) (pet : Pet) : Point :=
  let tags := [("id", pet.ID), ("name", pet.Name)]
  let fields := [
    ("value", FieldValue.int pet.Pod.Battery.Value),
    ("remaining", FieldValue.int pet.Pod.Battery.Remaining)]
  ⟨"battery", tags, fields, w.now (clock + 2)⟩

/-- Body of the loop over `fullResponse.Pets`, for one element. Reading
`pet.ID` of a nil pet is a nil pointer dereference. -/
def petBody (lib : Lib) (w : World) (s : LoopState) (pet : Option Pet) : Step LoopState :=
  match pet with
  | none => .panic
  | some pet =>
    let pt := locationPoint w s.clock pet
    if !lib.newPoint pt then .fatal "influxdb NewPoint creation failed"
    else
      let bp := s.bp ++ [pt]
      let pt := batteryPoint w s.clock pet
      if !lib.newPoint pt then .fatal "influxdb NewPoint creation failed"
      else .next ⟨s.clock + 3, bp ++ [pt]⟩

/-- The loop `for _, pet = range fullResponse.Pets`. -/
def petsLoop (lib : Lib) (w : World) : List (Option Pet) → LoopState → Step LoopState
  | [], s => .next s
  | pet :: rest, s =>
    match petBody lib w s pet with
    | .next s1 => petsLoop lib w rest s1
    | .fatal msg => .fatal msg
    | .panic => .panic

/-- What one run of a piece of the program leaves behind: its events, and
how it ended (`next` carries the number of clock readings taken). -/
structure Run where
  events : List Event
  status : Step Nat
deriving DecidableEq, Repr

/-- One poll cycle: the body of `for _ = range time.Tick(time.Minute)`, for
tick number `k`, with the token from the login. -/
def cycle (lib : Lib) (w : World) (k : Nat) (token : String) (clock : Nat) : Run :=
  if !w.newBatchPoints k then
    ⟨[.fatal "influxdb NewBatchPoints creation failed"], .fatal "influxdb NewBatchPoints creation failed"⟩
  else
    match getUnmarshalAuth lib w k fullURL token FullResponse.zero with
    | (some _, _) => ⟨[.get fullURL token, .fatal "full fetch failed"], .fatal "full fetch failed"⟩
    | (none, fullResponse) =>
      match petsLoop lib w fullResponse.Pets.elems ⟨clock, []⟩ with
      | .panic => ⟨[.get fullURL token, .info "fetched full data"], .panic⟩
      | .fatal msg => ⟨[.get fullURL token, .info "fetched full data", .fatal msg], .fatal msg⟩
      | .next s =>
        if !w.write k s.bp then
          ⟨[.get fullURL token, .info "fetched full data", .write "pod" "s" s.bp,
            .fatal "influxdb Write failed"], .fatal "influxdb Write failed"⟩
        else
          ⟨[.get fullURL token, .info "fetched full data", .write "pod" "s" s.bp,
            .info "wrote data"], .next s.clock⟩

/-- The poll loop, followed for `ticks` ticks of the timer, from tick `k`. -/
def pollLoop (lib : Lib) (w : World) (token : String) : Nat → Nat → Nat → Run
  | 0, _, clock => ⟨[], .next clock⟩
  | ticks + 1, k, clock =>
    let r := cycle lib w k token clock
    match r.status with
    | .next c =>
      let rest := pollLoop lib w token ticks (k + 1) c
      ⟨r.events ++ rest.events, rest.status⟩
    | _ => r

/-- The function `main`, followed for `ticks` ticks of the timer. The error
that `marshalGetUnmarshal` returns is not assigned to anything. -/
def main (lib : Lib) (w : World) (ticks : Nat) : Run :=
  let email := w.getenv "POD_EMAIL"
  let password := w.getenv "POD_PASSWORD"
  let request : LoginRequest := ⟨email, password⟩
  let response := (marshalGetUnmarshal lib w loginURL request LoginResponse.zero).2
  if !w.newHTTPClient (w.getenv "POD_INFLUX_ADDR") then
    ⟨[.post loginURL request, .info "got account",
      .fatal "influxdb NewHTTPClient creation failed"],
     .fatal "influxdb NewHTTPClient creation failed"⟩
  else
    let r := pollLoop lib w response.Token ticks 0 0
    ⟨[.post loginURL request, .info "got account"] ++ r.events, r.status⟩

/-! ## Auxiliary definitions for the statements -/

/-- The points of a list of pets, written out: for each pet in order its
location point and its battery point, three readings of the clock per pet. -/
def batchOf (w : World) : Nat → List Pet → List Point
  | _, [] => []
  | clock, pet :: rest =>
    locationPoint w clock pet :: batteryPoint w clock pet :: batchOf w (clock + 3) rest

/-- The object with members `members` has a member with key `name` and
value `v`, and every member whose key is `name` up to case has that value. -/
def HasMember (members : List (String × JValue)) (name : String) (v : JValue) : Prop :=
  (name, v) ∈ members ∧
  ∀ key v1, (key, v1) ∈ members → selects name key = true → v1 = v

/-- Whether an event is a write to the database. -/
def Event.isWrite : Event → Bool
  | .write _ _ _ => true
  | _ => false

/-! ## Sample library and sample data

The theorems below hold for every `Lib` and every `World`. The closed
examples need one of each; the readers here agree with the Go library on the
tokens of the sample responses. -/

/-- Value of a non-empty string of decimal digits. -/
def digitsValue (cs : List Char) : Option Nat :=
  if cs.isEmpty then none
  else cs.foldl (fun acc c =>
    acc.bind (fun n => if 48 ≤ c.toNat ∧ c.toNat ≤ 57 then some (10 * n + (c.toNat - 48)) else none))
    (some 0)

/-- Reader of number tokens as int64: an optional minus sign and decimal
digits, within the int64 range; a token with a fraction or an exponent is
refused. -/
def sampleParseInt (s : String) : Option Int :=
  match s.toList with
  | [] => none
  | c :: cs =>
    if c.toNat = 45 then
      (digitsValue cs).bind (fun n => if n ≤ 2 ^ 63 then some (-(n : Int)) else none)
    else
      (digitsValue (c :: cs)).bind (fun n => if n < 2 ^ 63 then some (n : Int) else none)

/-- Reader of number tokens as float64, for the tokens of the sample
responses only. -/
def sampleParseFloat (s : String) : Option Float64 :=
  if s = "1.0" then some ⟨0x3FF0000000000000⟩
  else if s = "2.0" then some ⟨0x4000000000000000⟩
  else if s = "5.0" then some ⟨0x4014000000000000⟩
  else none

/-- Whether `y` is a leap year. -/
def isLeap (y : Nat) : Bool := y % 4 == 0 && (y % 100 != 0 || y % 400 == 0)

/-- Days in month `m` of year `y`. -/
def daysIn (y m : Nat) : Nat :=
  if m = 2 then (if isLeap y then 29 else 28)
  else if m = 4 ∨ m = 6 ∨ m = 9 ∨ m = 11 then 30
  else 31

/-- Days from January 1 of year 1 to day `d` of month `m` of year `y`. -/
def daysSinceYearOne (y m d : Nat) : Nat :=
  365 * (y - 1) + (y - 1) / 4 - (y - 1) / 100 + (y - 1) / 400
    + ((List.range (m - 1)).map (fun i => daysIn y (i + 1))).sum + (d - 1)

/-- Reader of timestamps written `YYYY-MM-DDTHH:MM:SSZ`, the form of the
sample responses; every other form is refused. -/
def sampleParseTime (s : String) : Option Time :=
  match s.toList with
  | [y1, y2, y3, y4, h1, m1, m2, h2, d1, d2, t, H1, H2, c1, M1, M2, c2, S1, S2, z] =>
    if h1.toNat = 45 ∧ h2.toNat = 45 ∧ t.toNat = 84 ∧ c1.toNat = 58 ∧ c2.toNat = 58
        ∧ z.toNat = 90 then
      match digitsValue [y1, y2, y3, y4], digitsValue [m1, m2], digitsValue [d1, d2],
          digitsValue [H1, H2], digitsValue [M1, M2], digitsValue [S1, S2] with
      | some y, some m, some d, some H, some M, some S =>
        if 1 ≤ y ∧ 1 ≤ m ∧ m ≤ 12 ∧ 1 ≤ d ∧ d ≤ daysIn y m ∧ H < 24 ∧ M < 60 ∧ S < 60 then
          some ⟨(((daysSinceYearOne y m d : Int) - 719162) * 86400 + H * 3600 + M * 60 + S)
            * 1000000000⟩
        else none
      | _, _, _, _, _, _ => none
    else none
  | _ => none

/-- Sample library: the readers above, and a `client.NewPoint` that accepts
what it is given. -/
def sampleLib : Lib := ⟨sampleParseInt, sampleParseFloat, sampleParseTime, fun _ => true⟩

/-- Login response of the scenario. -/
def sampleLogin : JValue :=
  .obj [("userId", .str "u1"), ("email", .str "a@b.com"),
    ("expires", .str "2030-01-01T00:00:00Z"), ("token", .str "tok123")]

/-- Location of the pet of the scenario. -/
def sampleLocation : JValue :=
  .obj [("timestamp", .str "2030-01-01T00:00:00Z"), ("lat", .num "1.0"), ("lon", .num "2.0"),
    ("accuracy", .num "5.0")]

/-- Pet of the scenario, with `batteryInfo` a direct member of the pet. -/
def samplePetFlat : JValue :=
  .obj [("id", .str "p1"), ("name", .str "Rex"),
    ("batteryInfo", .obj [("value", .num "80"), ("remaining", .num "50")]),
    ("location", sampleLocation)]

/-- Pet of the scenario, with `batteryInfo` inside a `pod` member. -/
def samplePetNested : JValue :=
  .obj [("id", .str "p1"), ("name", .str "Rex"),
    ("pod", .obj [("batteryInfo", .obj [("value", .num "80"), ("remaining", .num "50")])]),
    ("location", sampleLocation)]

/-- The pet of the scenario as a Go value, with the battery reading of
`samplePetNested`. -/
def samplePet : Pet :=
  ⟨"p1", "Rex", "", ⟨⟨"", 80, 50⟩⟩,
    ⟨⟨1893456000 * 1000000000⟩, ⟨0x3FF0000000000000⟩, ⟨0x4000000000000000⟩,
      ⟨0x4014000000000000⟩⟩⟩

/-- A roster of two pets: the pet of the scenario with its battery inside
`pod`, and a pet with no member at all. -/
def sampleRoster : JValue := .obj [("pets", .arr [samplePetNested, .obj []])]

/-- The batch that a poll cycle of the sample world builds from
`sampleRoster` when it starts with the first reading of the clock. The
second pet has no location, so its fix time is the zero time and its age is
the largest duration. -/
def sampleBatch : List Point :=
  [⟨"location", [("id", "p1"), ("name", "Rex")],
      [("latitude", .float ⟨0x3FF0000000000000⟩), ("longitude", .float ⟨0x4000000000000000⟩),
       ("accuracy", .float ⟨0x4014000000000000⟩), ("age", .seconds 60000000000)],
      ⟨1893456061000000000⟩⟩,
   ⟨"battery", [("id", "p1"), ("name", "Rex")],
      [("value", .int 80), ("remaining", .int 50)], ⟨1893456062000000000⟩⟩,
   ⟨"location", [("id", ""), ("name", "")],
      [("latitude", .float ⟨0⟩), ("longitude", .float ⟨0⟩), ("accuracy", .float ⟨0⟩),
       ("age", .seconds 9223372036854775807)],
      ⟨1893456064000000000⟩⟩,
   ⟨"battery", [("id", ""), ("name", "")],
      [("value", .int 0), ("remaining", .int 0)], ⟨1893456065000000000⟩⟩]

/-- A lower bound of the length in bytes of the key that package `models`
of the client library makes from the measurement and the tags of a point:
the measurement, and for every tag with a value a comma, the tag key, an
equals sign and the tag value. Bytes that escaping adds are not counted. -/
def makeKeySize (name : String) (tags : List (String × String)) : Nat :=
  name.utf8ByteSize
    + ((tags.filter (fun t => t.2.utf8ByteSize != 0)).map
        (fun t => 1 + t.1.utf8ByteSize + 1 + t.2.utf8ByteSize)).sum

/-- The key length check of `client.NewPoint`: the library refuses a point
without fields, and a point for which the key, a separator of four bytes and
the name of a field are together longer than `MaxKeyLength = 65535` bytes.
The other checks of `NewPoint` are left out, and the key is counted without
escaping, so that a point refused here is refused by the library. -/
def keyLengthCheck (pt : Point) : Bool :=
  !pt.fields.isEmpty &&
    pt.fields.all (fun f => makeKeySize pt.name pt.tags + 4 + f.1.utf8ByteSize ≤ 65535)

/-- The sample library with the key length check for `client.NewPoint`. -/
def keyCheckingLib : Lib := ⟨sampleParseInt, sampleParseFloat, sampleParseTime, keyLengthCheck⟩

/-- A name of 70000 bytes. -/
def longName : String := String.mk (List.replicate 70000 'a')

/-- A roster with one pet, whose name has 70000 bytes. -/
def longNameRoster : JValue := .obj [("pets", .arr [.obj [("name", .str longName)]])]

/-- The pet that `longNameRoster` decodes to. -/
def longNamePet : Pet := { Pet.zero with Name := longName }

/-- An answer 401 with an error object, as a server gives to a request
without valid credentials. -/
def sampleUnauthorized : Exchange :=
  .answered 401 (some (.obj [("message", .str "Unauthorized")]))

/-- A world in which the login request ends as `login` and every roster
request as `roster`; the clock reads one second more at every reading,
starting at 2030-01-01T00:01:00Z, and the database accepts every write. -/
def worldWith (login roster : Exchange) : World where
  getenv := fun name =>
    if name = "POD_EMAIL" then "a@b.com"
    else if name = "POD_PASSWORD" then "secret"
    else "http://localhost:8086"
  post := fun _ _ => login
  get := fun _ _ _ => roster
  now := fun i => ⟨(1893456060 + (i : Int)) * 1000000000⟩
  newHTTPClient := fun _ => true
  newBatchPoints := fun _ => true
  write := fun _ _ => true

/-- Sample world: the login answers 200 with `sampleLogin` and every roster
request answers 200 with `roster`. -/
def sampleWorld (roster : JValue) : World :=
  worldWith (.answered 200 (some sampleLogin)) (.answered 200 (some roster))

/-! ## Decoding: general facts -/

theorem decodeString_abort (v : JValue) (cur : String) : (decodeString v cur).abort = false := by
  cases v <;> rfl

theorem decodeInt_abort (lib : Lib) (v : JValue) (cur : Int) :
    (decodeInt lib v cur).abort = false := by
  cases v <;> simp only [decodeInt, Decoded.ok, Decoded.mismatch]
  split <;> rfl

/-- A key selects at most one of two field names with different folded forms. -/
theorem selects_excl {a b k : String} (hab : foldName a ≠ foldName b)
    (ha : selects a k = true) : selects b k = false := by
  simp only [selects, beq_iff_eq] at ha
  simp only [selects, ha, beq_eq_false_iff_ne, ne_eq]
  exact hab

/-- Every name selects itself. -/
theorem selects_self (a : String) : selects a a = true := by
  simp [selects]

/-- The decoder of members does not stop when no member makes it stop. -/
theorem decodeMembers_abort {α : Type} (setField : String → JValue → α → Decoded α)
    (members : List (String × JValue))
    (h : ∀ k v, (k, v) ∈ members → ∀ cur, (setField k v cur).abort = false) :
    ∀ cur, (decodeMembers setField members cur).abort = false := by
  induction members with
  | nil => intro cur; rfl
  | cons m rest ih =>
    intro cur
    obtain ⟨k, v⟩ := m
    have hk := h k v (List.mem_cons_self _ _) cur
    have ihr := ih (fun k v hm => h k v (List.mem_cons_of_mem _ hm)) (setField k v cur).value
    simp only [decodeMembers, hk, Bool.false_eq_true, if_false]
    exact ihr

/-- One field after decoding the members of an object: when the decoder did
not stop, every member that selects the field leaves `b` in it, and no other
member touches it, the field holds `b` if some member selects it and is
unchanged otherwise. -/
theorem decodeMembers_field {α β : Type} (setField : String → JValue → α → Decoded α)
    (get : α → β) (sel : String → Bool) (b : β) (members : List (String × JValue))
    (hsel : ∀ k v, (k, v) ∈ members → sel k = true →
      ∀ cur, (setField k v cur).abort = false → get (setField k v cur).value = b)
    (hother : ∀ k v, (k, v) ∈ members → sel k = false →
      ∀ cur, get (setField k v cur).value = get cur) :
    ∀ cur, (decodeMembers setField members cur).abort = false →
      get (decodeMembers setField members cur).value
        = if members.any (fun m => sel m.1) then b else get cur := by
  induction members with
  | nil => intro cur _; simp [decodeMembers, Decoded.ok]
  | cons m rest ih =>
    intro cur hab
    obtain ⟨k, v⟩ := m
    have ihr := ih (fun k v hm => hsel k v (List.mem_cons_of_mem _ hm))
      (fun k v hm => hother k v (List.mem_cons_of_mem _ hm)) (setField k v cur).value
    by_cases hstop : (setField k v cur).abort = true
    · simp [decodeMembers, hstop] at hab
    · have hgo : (setField k v cur).abort = false := by simpa using hstop
      simp only [decodeMembers, hgo, Bool.false_eq_true, if_false] at hab ⊢
      rw [ihr hab]
      by_cases hk : sel k = true
      · have := hsel k v (List.mem_cons_self _ _) hk cur hgo
        simp [List.any_cons, hk, this]
      · have hk2 : sel k = false := by simpa using hk
        have := hother k v (List.mem_cons_self _ _) hk2 cur
        rw [this, List.any_cons, hk2, Bool.false_or]

/-- A member that is in the list is found by `any`. -/
theorem any_selects_of_mem {name : String} {v : JValue} {members : List (String × JValue)}
    (h : (name, v) ∈ members) : members.any (fun m => selects name m.1) = true := by
  simp only [List.any_eq_true]
  exact ⟨(name, v), h, selects_self name⟩

/-- A member that stands between members that do not select `name` is the
member `name` of the object. -/
theorem hasMember_of_split {members : List (String × JValue)} {name : String} {v : JValue}
    (pre post : List (String × JValue)) (hsplit : members = pre ++ (name, v) :: post)
    (hnone : (pre ++ post).all (fun m => !selects name m.1) = true) :
    HasMember members name v := by
  subst hsplit
  refine ⟨by simp, ?_⟩
  intro key v1 hm hk
  simp only [List.all_eq_true, List.mem_append, Bool.not_eq_eq_eq_not, Bool.not_true] at hnone
  simp only [List.mem_append, List.mem_cons, Prod.mk.injEq] at hm
  rcases hm with hm | ⟨_, rfl⟩ | hm
  · have := hnone (key, v1) (Or.inl hm)
    simp only [hk] at this
    exact absurd this (by simp)
  · rfl
  · have := hnone (key, v1) (Or.inr hm)
    simp only [hk] at this
    exact absurd this (by simp)

/-! ## Login response -/

theorem login_token_untouched (lib : Lib) (k : String) (v : JValue)
    (hk : selects "token" k = false) (cur : LoginResponse) :
    (LoginResponse.setField lib k v cur).value.Token = cur.Token := by
  simp only [LoginResponse.setField, hk, Bool.false_eq_true, if_false]
  split_ifs <;> rfl

theorem login_expires_untouched (lib : Lib) (k : String) (v : JValue)
    (hk : selects "Expires" k = false) (cur : LoginResponse) :
    (LoginResponse.setField lib k v cur).value.Expires = cur.Expires := by
  simp only [LoginResponse.setField, hk, Bool.false_eq_true, if_false]
  split_ifs <;> rfl

theorem login_token_stored (lib : Lib) (k : String) (tok : String)
    (hk : selects "token" k = true) (cur : LoginResponse) :
    (LoginResponse.setField lib k (.str tok) cur).value.Token = tok := by
  have h1 : selects "userId" k = false := selects_excl (by decide) hk
  have h2 : selects "email" k = false := selects_excl (by decide) hk
  have h3 : selects "Expires" k = false := selects_excl (by decide) hk
  simp [LoginResponse.setField, hk, h1, h2, h3, decodeString, Decoded.store, Decoded.ok]

theorem login_expires_stored (lib : Lib) (k : String) (e : String) (t : Time)
    (ht : lib.parseTime e = some t)
    (hk : selects "Expires" k = true) (cur : LoginResponse) :
    LoginResponse.setField lib k (.str e) cur = ⟨{ cur with Expires := t }, false, false⟩ := by
  have h1 : selects "userId" k = false := selects_excl (by decide) hk
  have h2 : selects "email" k = false := selects_excl (by decide) hk
  simp [LoginResponse.setField, hk, h1, h2, decodeTime, ht, Decoded.store, Decoded.ok]

theorem login_member_goes_on (lib : Lib) (k : String) (v : JValue)
    (hk : selects "Expires" k = false) (cur : LoginResponse) :
    (LoginResponse.setField lib k v cur).abort = false := by
  simp only [LoginResponse.setField, hk, Bool.false_eq_true, if_false]
  split_ifs <;> simp [Decoded.store, Decoded.ok, decodeString_abort]


/-! ## The loop over the pets -/

/-- For a pet that is not nil the loop body either stops on a rejected
point or adds the location point and the battery point, in this order. -/
theorem petBody_next (lib : Lib) (w : World) (s : LoopState) (D : Pet)
    (h : petBody lib w s (some D) ≠ .fatal "influxdb NewPoint creation failed") :
    petBody lib w s (some D)
      = .next ⟨s.clock + 3, s.bp ++ [locationPoint w s.clock D, batteryPoint w s.clock D]⟩ := by
  unfold petBody at h ⊢
  by_cases h1 : lib.newPoint (locationPoint w s.clock D) = true
  · by_cases h2 : lib.newPoint (batteryPoint w s.clock D) = true
    · simp [h1, h2]
    · simp [h1, h2] at h
  · simp [h1] at h

/-- The loop body never panics on a pet that is not nil. -/
theorem petBody_some_cases (lib : Lib) (w : World) (s : LoopState) (D : Pet) :
    petBody lib w s (some D) = .fatal "influxdb NewPoint creation failed" ∨
    petBody lib w s (some D)
      = .next ⟨s.clock + 3, s.bp ++ [locationPoint w s.clock D, batteryPoint w s.clock D]⟩ := by
  by_cases h : petBody lib w s (some D) = .fatal "influxdb NewPoint creation failed"
  · exact Or.inl h
  · exact Or.inr (petBody_next lib w s D h)

/-- When `client.NewPoint` accepts both points of a pet, the loop body adds
them and goes on. -/
theorem petBody_accepted (lib : Lib) (w : World) (s : LoopState) (D : Pet)
    (hloc : lib.newPoint (locationPoint w s.clock D) = true)
    (hbat : lib.newPoint (batteryPoint w s.clock D) = true) :
    petBody lib w s (some D)
      = .next ⟨s.clock + 3, s.bp ++ [locationPoint w s.clock D, batteryPoint w s.clock D]⟩ := by
  simp [petBody, hloc, hbat]

/-- A loop that runs to its end met no nil pet and added the points of every
pet, in order. -/
theorem petsLoop_next (lib : Lib) (w : World) :
    ∀ (pets : List (Option Pet)) (s s1 : LoopState), petsLoop lib w pets s = .next s1 →
      ∃ devices : List Pet, pets = devices.map some ∧
        s1 = ⟨s.clock + 3 * devices.length, s.bp ++ batchOf w s.clock devices⟩ := by
  intro pets
  induction pets with
  | nil =>
    intro s s1 h
    simp only [petsLoop, Step.next.injEq] at h
    exact ⟨[], rfl, by simp [batchOf, ← h]⟩
  | cons pet rest ih =>
    intro s s1 h
    cases pet with
    | none => simp [petsLoop, petBody] at h
    | some D =>
      rcases petBody_some_cases lib w s D with hb | hb
      · simp [petsLoop, hb] at h
      · simp only [petsLoop, hb] at h
        obtain ⟨devices, hd, hs⟩ := ih _ s1 h
        refine ⟨D :: devices, by simp [hd], ?_⟩
        rw [hs]
        simp only [batchOf, List.length_cons, List.append_assoc, List.cons_append,
          List.nil_append, LoopState.mk.injEq, and_true]
        omega

/-- When the library accepts the points of every pet, the loop over pets
that are not nil runs to its end. -/
theorem petsLoop_accepting (lib : Lib) (w : World) :
    ∀ (devices : List Pet) (s : LoopState),
      (∀ p, p ∈ batchOf w s.clock devices → lib.newPoint p = true) →
      petsLoop lib w (devices.map some) s
        = .next ⟨s.clock + 3 * devices.length, s.bp ++ batchOf w s.clock devices⟩ := by
  intro devices
  induction devices with
  | nil => intro s _; simp [petsLoop, batchOf]
  | cons D rest ih =>
    intro s hacc
    have hb := petBody_accepted lib w s D
      (hacc _ (by simp [batchOf])) (hacc _ (by simp [batchOf]))
    have ihr := ih ⟨s.clock + 3, s.bp ++ [locationPoint w s.clock D, batteryPoint w s.clock D]⟩
      (fun p hp => hacc p (by simp only [batchOf, List.mem_cons]; exact Or.inr (Or.inr hp)))
    simp only [List.map_cons, petsLoop, hb, ihr, batchOf, List.length_cons, List.append_assoc,
      List.cons_append, List.nil_append, Step.next.injEq, LoopState.mk.injEq, and_true]
    omega

theorem batchOf_length (w : World) :
    ∀ (devices : List Pet) (clock : Nat), (batchOf w clock devices).length = 2 * devices.length := by
  intro devices
  induction devices with
  | nil => intro _; rfl
  | cons D rest ih => intro clock; simp only [batchOf, List.length_cons, ih]; omega

/-- Where the points of the pet at position `i` stand in the batch. -/
theorem batchOf_getElem (w : World) :
    ∀ (devices : List Pet) (clock i : Nat) (D : Pet), devices[i]? = some D →
      (batchOf w clock devices)[2 * i]? = some (locationPoint w (clock + 3 * i) D) ∧
      (batchOf w clock devices)[2 * i + 1]? = some (batteryPoint w (clock + 3 * i) D) := by
  intro devices
  induction devices with
  | nil => intro clock i D h; simp at h
  | cons D0 rest ih =>
    intro clock i D h
    cases i with
    | zero =>
      simp only [List.getElem?_cons_zero, Option.some.injEq] at h
      subst h
      simp [batchOf]
    | succ j =>
      simp only [List.getElem?_cons_succ] at h
      obtain ⟨h1, h2⟩ := ih (clock + 3) j D h
      have e1 : 2 * (j + 1) = (2 * j + 1) + 1 := by omega
      have e2 : clock + 3 * (j + 1) = clock + 3 + 3 * j := by omega
      simp only [batchOf, e1, e2, List.getElem?_cons_succ]
      exact ⟨h1, h2⟩

/-- Every point of the batch is the location point or the battery point of
some pet of the list. -/
theorem mem_batchOf (w : World) :
    ∀ (devices : List Pet) (clock : Nat) (p : Point), p ∈ batchOf w clock devices →
      ∃ (i : Nat) (D : Pet), devices[i]? = some D ∧
        (p = locationPoint w (clock + 3 * i) D ∨ p = batteryPoint w (clock + 3 * i) D) := by
  intro devices
  induction devices with
  | nil => intro clock p h; simp [batchOf] at h
  | cons D0 rest ih =>
    intro clock p h
    simp only [batchOf, List.mem_cons] at h
    rcases h with h | h | h
    · exact ⟨0, D0, by simp, Or.inl (by simpa using h)⟩
    · exact ⟨0, D0, by simp, Or.inr (by simpa using h)⟩
    · obtain ⟨i, D, hi, hp⟩ := ih (clock + 3) p h
      have e : clock + 3 * (i + 1) = clock + 3 + 3 * i := by omega
      exact ⟨i + 1, D, by simpa using hi, by rw [e]; exact hp⟩

/-! ## One poll cycle -/

/-- A write in a poll cycle: the batch object was made, the roster was
fetched and decoded without error, the loop over its pets ran to its end,
and what is written is the batch of that loop. -/
theorem cycle_write (lib : Lib) (w : World) (k : Nat) (token : String) (clock : Nat)
    (db prec : String) (pts : List Point)
    (h : Event.write db prec pts ∈ (cycle lib w k token clock).events) :
    db = "pod" ∧ prec = "s" ∧ w.newBatchPoints k = true ∧
    ∃ roster c, getUnmarshalAuth lib w k fullURL token FullResponse.zero = (none, roster) ∧
      petsLoop lib w roster.Pets.elems ⟨clock, []⟩ = .next ⟨c, pts⟩ := by
  unfold cycle at h
  by_cases hb : w.newBatchPoints k = true
  · simp only [hb, Bool.not_true, Bool.false_eq_true, if_false] at h
    rcases hg : getUnmarshalAuth lib w k fullURL token FullResponse.zero with ⟨err, roster⟩
    rw [hg] at h
    cases err with
    | some e => simp at h
    | none =>
      simp only at h
      cases hl : petsLoop lib w roster.Pets.elems ⟨clock, []⟩ with
      | panic => rw [hl] at h; simp at h
      | fatal msg => rw [hl] at h; simp at h
      | next s1 =>
        rw [hl] at h
        simp only at h
        by_cases hw : w.write k s1.bp = true
        · simp [hw] at h
          obtain ⟨rfl, rfl, rfl⟩ := h
          exact ⟨rfl, rfl, hb, roster, s1.clock, rfl, hl⟩
        · simp [hw] at h
          obtain ⟨rfl, rfl, rfl⟩ := h
          exact ⟨rfl, rfl, hb, roster, s1.clock, rfl, hl⟩
  · simp [hb] at h

/-- The writes of a poll cycle whose loop over the pets ran to its end. -/
theorem cycle_writes_of_next (lib : Lib) (w : World) (k : Nat) (token : String) (clock : Nat)
    (roster : FullResponse) (s1 : LoopState)
    (hb : w.newBatchPoints k = true)
    (hg : getUnmarshalAuth lib w k fullURL token FullResponse.zero = (none, roster))
    (hl : petsLoop lib w roster.Pets.elems ⟨clock, []⟩ = .next s1) :
    (cycle lib w k token clock).events.filter Event.isWrite = [.write "pod" "s" s1.bp] := by
  unfold cycle
  simp only [hb, Bool.not_true, Bool.false_eq_true, if_false, hg, hl]
  by_cases hw : w.write k s1.bp = true
  · simp [hw, List.filter, Event.isWrite]
  · simp [hw, List.filter, Event.isWrite]

/-- A poll cycle writes at most once. -/
theorem cycle_writes_le_one (lib : Lib) (w : World) (k : Nat) (token : String) (clock : Nat) :
    ((cycle lib w k token clock).events.filter Event.isWrite).length ≤ 1 := by
  unfold cycle
  by_cases hb : w.newBatchPoints k = true
  · simp only [hb, Bool.not_true, Bool.false_eq_true, if_false]
    rcases hg : getUnmarshalAuth lib w k fullURL token FullResponse.zero with ⟨err, roster⟩
    cases err with
    | some e => simp [List.filter, Event.isWrite]
    | none =>
      simp only
      cases hl : petsLoop lib w roster.Pets.elems ⟨clock, []⟩ with
      | panic => simp [List.filter, Event.isWrite]
      | fatal msg => simp [List.filter, Event.isWrite]
      | next s1 =>
        simp only
        by_cases hw : w.write k s1.bp = true
        · simp [hw, List.filter, Event.isWrite]
        · simp [hw, List.filter, Event.isWrite]
  · simp [hb, List.filter, Event.isWrite]


/-! ## A roster without pets -/

/-- A response object whose `pets` members, if any, are null or the empty
array decodes without error into a roster without pets. -/
theorem decodeMembers_without_pets (lib : Lib) :
    ∀ members : List (String × JValue),
      (∀ key v, (key, v) ∈ members → selects "pets" key = true → v = .null ∨ v = .arr []) →
      decodeMembers (FullResponse.setField lib) members FullResponse.zero
        = .ok FullResponse.zero := by
  intro members
  induction members with
  | nil => intro _; rfl
  | cons m rest ih =>
    intro h
    obtain ⟨key, v⟩ := m
    have ihr := ih (fun key v hm => h key v (List.mem_cons_of_mem _ hm))
    have hstep : FullResponse.setField lib key v FullResponse.zero = .ok FullResponse.zero := by
      by_cases hk : selects "pets" key = true
      · rcases h key v (List.mem_cons_self _ _) hk with rfl | rfl <;>
          simp [FullResponse.setField, hk, decodePets, Decoded.store, Decoded.ok,
            FullResponse.zero]
      · simp [FullResponse.setField, hk]
    simp only [decodeMembers, hstep, ihr, Decoded.ok, Bool.false_eq_true, if_false,
      Bool.or_self]


/-! ## Where the battery is read from -/

/-- A property of a struct after decoding the members of an object: when
the decoder did not stop, every member that selects the field establishes
the property, no other member destroys it, and some member selects the
field, the property holds at the end. -/
theorem decodeMembers_pred {α : Type} (setField : String → JValue → α → Decoded α)
    (P : α → Prop) (sel : String → Bool) (members : List (String × JValue))
    (hsel : ∀ k v, (k, v) ∈ members → sel k = true →
      ∀ cur, (setField k v cur).abort = false → P (setField k v cur).value)
    (hother : ∀ k v, (k, v) ∈ members → sel k = false →
      ∀ cur, P cur → P (setField k v cur).value) :
    ∀ cur, (decodeMembers setField members cur).abort = false →
      (members.any (fun m => sel m.1) = true ∨ P cur) →
      P (decodeMembers setField members cur).value := by
  induction members with
  | nil =>
    intro cur _ h
    rcases h with h | h
    · simp at h
    · exact h
  | cons m rest ih =>
    intro cur hab h
    obtain ⟨k, v⟩ := m
    have ihr := ih (fun k v hm => hsel k v (List.mem_cons_of_mem _ hm))
      (fun k v hm => hother k v (List.mem_cons_of_mem _ hm)) (setField k v cur).value
    by_cases hstop : (setField k v cur).abort = true
    · simp [decodeMembers, hstop] at hab
    · have hgo : (setField k v cur).abort = false := by simpa using hstop
      simp only [decodeMembers, hgo, Bool.false_eq_true, if_false] at hab ⊢
      apply ihr hab
      by_cases hk : sel k = true
      · exact Or.inr (hsel k v (List.mem_cons_self _ _) hk cur hgo)
      · have hk2 : sel k = false := by simpa using hk
        rcases h with h | h
        · left
          simpa [List.any_cons, hk2] using h
        · exact Or.inr (hother k v (List.mem_cons_self _ _) hk2 cur h)

theorem battery_member_goes_on (lib : Lib) (k : String) (v : JValue) (cur : Battery) :
    (Battery.setField lib k v cur).abort = false := by
  simp only [Battery.setField]
  split_ifs <;> simp [Decoded.store, Decoded.ok, decodeString_abort, decodeInt_abort]

/-- The `Value` and `Remaining` of a battery decoded from an object with
number members `value` and `remaining` that read as `n` and `r`. -/
theorem decodeMembers_battery (lib : Lib) (batMembers : List (String × JValue))
    (lv lr : String) (n r : Int)
    (hval : HasMember batMembers "value" (.num lv)) (hlv : lib.parseInt lv = some n)
    (hrem : HasMember batMembers "remaining" (.num lr)) (hlr : lib.parseInt lr = some r)
    (cur : Battery) :
    (decodeMembers (Battery.setField lib) batMembers cur).abort = false ∧
    (decodeMembers (Battery.setField lib) batMembers cur).value.Value = n ∧
    (decodeMembers (Battery.setField lib) batMembers cur).value.Remaining = r := by
  have hab := decodeMembers_abort (Battery.setField lib) batMembers
    (fun k v _ cur => battery_member_goes_on lib k v cur) cur
  refine ⟨hab, ?_, ?_⟩
  · refine decodeMembers_pred (Battery.setField lib) (fun b => b.Value = n)
      (fun k => selects "value" k) batMembers ?_ ?_ cur hab
      (Or.inl (any_selects_of_mem hval.1))
    · intro k v hm hk cur _
      have h1 : selects "status" k = false := selects_excl (by decide) hk
      rw [hval.2 k v hm hk]
      simp [Battery.setField, hk, h1, decodeInt, hlv, Decoded.store, Decoded.ok]
    · intro k v _ hk cur hcur
      simp only [Battery.setField, hk, Bool.false_eq_true, if_false]
      split_ifs <;> exact hcur
  · refine decodeMembers_pred (Battery.setField lib) (fun b => b.Remaining = r)
      (fun k => selects "remaining" k) batMembers ?_ ?_ cur hab
      (Or.inl (any_selects_of_mem hrem.1))
    · intro k v hm hk cur _
      have h1 : selects "status" k = false := selects_excl (by decide) hk
      have h2 : selects "value" k = false := selects_excl (by decide) hk
      rw [hrem.2 k v hm hk]
      simp [Battery.setField, hk, h1, h2, decodeInt, hlr, Decoded.store, Decoded.ok]
    · intro k v _ hk cur hcur
      simp only [Battery.setField, hk, Bool.false_eq_true, if_false]
      split_ifs <;> exact hcur

/-- Decoding into a struct whose members never stop the decoder does not
stop. -/
theorem decodeStruct_abort {α : Type} (setField : String → JValue → α → Decoded α)
    (h : ∀ k v cur, (setField k v cur).abort = false) (v : JValue) (cur : α) :
    (decodeStruct setField v cur).abort = false := by
  cases v <;> simp only [decodeStruct, Decoded.ok, Decoded.mismatch]
  exact decodeMembers_abort setField _ (fun k v _ cur => h k v cur) cur

theorem pod_member_goes_on (lib : Lib) (k : String) (v : JValue) (cur : Pod) :
    (Pod.setField lib k v cur).abort = false := by
  simp only [Pod.setField]
  split_ifs
  · simp only [Decoded.store]
    exact decodeStruct_abort _ (battery_member_goes_on lib) v cur.Battery
  · rfl

/-- The battery of a pod decoded from an object with a `batteryInfo` member. -/
theorem decodeMembers_pod (lib : Lib) (podMembers batMembers : List (String × JValue))
    (lv lr : String) (n r : Int)
    (hbat : HasMember podMembers "batteryInfo" (.obj batMembers))
    (hval : HasMember batMembers "value" (.num lv)) (hlv : lib.parseInt lv = some n)
    (hrem : HasMember batMembers "remaining" (.num lr)) (hlr : lib.parseInt lr = some r)
    (cur : Pod) :
    (decodeMembers (Pod.setField lib) podMembers cur).value.Battery.Value = n ∧
    (decodeMembers (Pod.setField lib) podMembers cur).value.Battery.Remaining = r := by
  have hab := decodeMembers_abort (Pod.setField lib) podMembers
    (fun k v _ cur => pod_member_goes_on lib k v cur) cur
  refine decodeMembers_pred (Pod.setField lib)
    (fun p => p.Battery.Value = n ∧ p.Battery.Remaining = r)
    (fun k => selects "batteryInfo" k) podMembers ?_ ?_ cur hab
    (Or.inl (any_selects_of_mem hbat.1))
  · intro k v hm hk cur _
    rw [hbat.2 k v hm hk]
    simp only [Pod.setField, hk, if_true, Decoded.store, decodeStruct]
    exact (decodeMembers_battery lib batMembers lv lr n r hval hlv hrem hlr cur.Battery).2
  · intro k v _ hk cur hcur
    simp only [Pod.setField, hk, Bool.false_eq_true, if_false]
    exact hcur

/-- The battery of a pet decoded from an object with a `pod` member, when
the decoder did not stop on the way. -/
theorem decodeMembers_pet (lib : Lib) (petMembers podMembers batMembers : List (String × JValue))
    (lv lr : String) (n r : Int)
    (hpod : HasMember petMembers "pod" (.obj podMembers))
    (hbat : HasMember podMembers "batteryInfo" (.obj batMembers))
    (hval : HasMember batMembers "value" (.num lv)) (hlv : lib.parseInt lv = some n)
    (hrem : HasMember batMembers "remaining" (.num lr)) (hlr : lib.parseInt lr = some r)
    (cur : Pet) (hab : (decodeMembers (Pet.setField lib) petMembers cur).abort = false) :
    (decodeMembers (Pet.setField lib) petMembers cur).value.Pod.Battery.Value = n ∧
    (decodeMembers (Pet.setField lib) petMembers cur).value.Pod.Battery.Remaining = r := by
  refine decodeMembers_pred (Pet.setField lib)
    (fun p => p.Pod.Battery.Value = n ∧ p.Pod.Battery.Remaining = r)
    (fun k => selects "pod" k) petMembers ?_ ?_ cur hab
    (Or.inl (any_selects_of_mem hpod.1))
  · intro k v hm hk cur _
    have h1 : selects "id" k = false := selects_excl (by decide) hk
    have h2 : selects "name" k = false := selects_excl (by decide) hk
    have h3 : selects "type" k = false := selects_excl (by decide) hk
    rw [hpod.2 k v hm hk]
    simp only [Pet.setField, hk, h1, h2, h3, Bool.false_eq_true, if_false, if_true,
      Decoded.store, decodeStruct]
    exact decodeMembers_pod lib podMembers batMembers lv lr n r hbat hval hlv hrem hlr cur.Pod
  · intro k v _ hk cur hcur
    simp only [Pet.setField, hk, Bool.false_eq_true, if_false]
    split_ifs <;> exact hcur

/-- The elements decoded from the items of an array, when the decoder did
not stop: as many as there are items, and the one at position `i` is what
the item at position `i` decodes to, into some slot. -/
theorem decodeItems_getElem (lib : Lib) :
    ∀ (items : List JValue) (backing : List (Option Pet)),
      (decodeItems lib items backing).abort = false →
      (decodeItems lib items backing).value.1.length = items.length ∧
      ∀ (i : Nat) (v : JValue), items[i]? = some v →
        ∃ cur, (decodePetPtr lib v cur).abort = false ∧
          (decodeItems lib items backing).value.1[i]? = some (decodePetPtr lib v cur).value := by
  intro items
  induction items with
  | nil => intro backing _; simp [decodeItems, Decoded.ok]
  | cons v0 rest ih =>
    intro backing hab
    by_cases hstop : (decodePetPtr lib v0 (backing.headD none)).abort = true
    · simp only [decodeItems, hstop, if_true] at hab
      exact absurd hab (by simp)
    · have hgo : (decodePetPtr lib v0 (backing.headD none)).abort = false :=
        Bool.eq_false_iff.mpr hstop
      simp only [decodeItems, hgo, Bool.false_eq_true, if_false] at hab ⊢
      obtain ⟨hlen, hget⟩ := ih backing.tail hab
      refine ⟨by simp [hlen], ?_⟩
      intro i v hi
      cases i with
      | zero =>
        simp only [List.getElem?_cons_zero, Option.some.injEq] at hi
        subst hi
        exact ⟨backing.headD none, hgo, by simp⟩
      | succ j =>
        simp only [List.getElem?_cons_succ] at hi
        obtain ⟨cur, h1, h2⟩ := hget j v hi
        exact ⟨cur, h1, by simpa using h2⟩


/-- The pet at position `i` of a slice decoded from an array whose item at
position `i` is an object with the battery inside `pod`. -/
theorem decodePets_battery (lib : Lib) (items : List JValue) (i : Nat)
    (petMembers podMembers batMembers : List (String × JValue))
    (lv lr : String) (n r : Int)
    (hpet : items[i]? = some (.obj petMembers))
    (hpod : HasMember petMembers "pod" (.obj podMembers))
    (hbat : HasMember podMembers "batteryInfo" (.obj batMembers))
    (hval : HasMember batMembers "value" (.num lv)) (hlv : lib.parseInt lv = some n)
    (hrem : HasMember batMembers "remaining" (.num lr)) (hlr : lib.parseInt lr = some r)
    (cur : PetSlice) (hab : (decodePets lib (.arr items) cur).abort = false) :
    ∃ pet, (decodePets lib (.arr items) cur).value.elems[i]? = some (some pet) ∧
      pet.Pod.Battery.Value = n ∧ pet.Pod.Battery.Remaining = r := by
  cases items with
  | nil => simp at hpet
  | cons v0 rest =>
    simp only [decodePets, Decoded.store] at hab ⊢
    obtain ⟨_, hget⟩ := decodeItems_getElem lib (v0 :: rest) (cur.elems ++ cur.spare) hab
    obtain ⟨slot, h1, h2⟩ := hget i _ hpet
    simp only [decodePetPtr, Decoded.store] at h1 h2
    have hq := decodeMembers_pet lib petMembers podMembers batMembers lv lr n r hpod hbat hval hlv
      hrem hlr (slot.getD Pet.zero) h1
    refine ⟨_, ?_, hq⟩
    simp only [hab, Bool.false_eq_true, if_false, List.take_left']
    exact h2

/-- The pet at position `i` of a roster decoded from a response object
whose `pets` member is an array with, at position `i`, an object with the
battery inside `pod`. -/
theorem decodeMembers_roster_battery (lib : Lib) (members : List (String × JValue))
    (items : List JValue) (i : Nat)
    (petMembers podMembers batMembers : List (String × JValue))
    (lv lr : String) (n r : Int)
    (hpets : HasMember members "pets" (.arr items))
    (hpet : items[i]? = some (.obj petMembers))
    (hpod : HasMember petMembers "pod" (.obj podMembers))
    (hbat : HasMember podMembers "batteryInfo" (.obj batMembers))
    (hval : HasMember batMembers "value" (.num lv)) (hlv : lib.parseInt lv = some n)
    (hrem : HasMember batMembers "remaining" (.num lr)) (hlr : lib.parseInt lr = some r)
    (cur : FullResponse)
    (hab : (decodeMembers (FullResponse.setField lib) members cur).abort = false) :
    ∃ pet, (decodeMembers (FullResponse.setField lib) members cur).value.Pets.elems[i]?
        = some (some pet) ∧
      pet.Pod.Battery.Value = n ∧ pet.Pod.Battery.Remaining = r := by
  refine decodeMembers_pred (FullResponse.setField lib)
    (fun fr => ∃ pet, fr.Pets.elems[i]? = some (some pet) ∧
      pet.Pod.Battery.Value = n ∧ pet.Pod.Battery.Remaining = r)
    (fun k => selects "pets" k) members ?_ ?_ cur hab (Or.inl (any_selects_of_mem hpets.1))
  · intro k v hm hk cur hgo
    rw [hpets.2 k v hm hk] at hgo ⊢
    simp only [FullResponse.setField, hk, if_true, Decoded.store] at hgo ⊢
    exact decodePets_battery lib items i petMembers podMembers batMembers lv lr n r hpet hpod hbat
      hval hlv hrem hlr cur.Pets hgo
  · intro k v _ hk cur hcur
    simp only [FullResponse.setField, hk, Bool.false_eq_true, if_false]
    exact hcur


/-- C7. A login response object with a `token` member holding the string
`tok` and an `expires` member holding a string that the time parser reads as
the instant `t` (and no other member whose key differs from these only by
case and holds something else, see `HasMember`): after `marshalGetUnmarshal`, `Token` is
exactly `tok` and `Expires` is `t`. The `expires` member reaches the field
although its tag is malformed, because keys are matched to the Go field name
`Expires` without regard to case. -/
theorem login_decodes_token_and_expires (lib : Lib) (w : World) (url : String)
    (request : LoginRequest) (status : Nat) (members : List (String × JValue))
    (tok e : String) (t : Time)
    (hpost : w.post url request = .answered status (some (.obj members)))
    (htoken : HasMember members "token" (.str tok))
    (hexpires : HasMember members "expires" (.str e))
    (ht : lib.parseTime e = some t) :
    (marshalGetUnmarshal lib w url request LoginResponse.zero).2.Token = tok ∧
    (marshalGetUnmarshal lib w url request LoginResponse.zero).2.Expires = t := by
  obtain ⟨htok, htok_only⟩ := htoken
  obtain ⟨hexp, hexp_only⟩ := hexpires
  have hfold : ∀ k, selects "Expires" k = selects "expires" k := fun k => by
    simp only [selects]
    rw [show foldName "Expires" = foldName "expires" by decide]
  have hab : (decodeMembers (LoginResponse.setField lib) members LoginResponse.zero).abort
      = false := by
    apply decodeMembers_abort
    intro k v hm cur
    by_cases hk : selects "Expires" k = true
    · rw [hexp_only k v hm (by rw [← hfold]; exact hk),
        login_expires_stored lib k e t ht hk]
    · exact login_member_goes_on lib k v (by simpa using hk) cur
  have h1 := decodeMembers_field (LoginResponse.setField lib) (fun r => r.Token)
    (fun k => selects "token" k) tok members
    (fun k v hm hk cur _ => by
      rw [htok_only k v hm hk]; exact login_token_stored lib k tok hk cur)
    (fun k v _ hk cur => login_token_untouched lib k v hk cur)
    LoginResponse.zero hab
  have h2 := decodeMembers_field (LoginResponse.setField lib) (fun r => r.Expires)
    (fun k => selects "Expires" k) t members
    (fun k v hm hk cur _ => by
      rw [hexp_only k v hm (by rw [← hfold]; exact hk),
        login_expires_stored lib k e t ht hk])
    (fun k v _ hk cur => login_expires_untouched lib k v hk cur)
    LoginResponse.zero hab
  have a1 : members.any (fun m => selects "token" m.1) = true := any_selects_of_mem htok
  have a2 : members.any (fun m => selects "Expires" m.1) = true := by
    simp only [List.any_eq_true]
    exact ⟨_, hexp, (by decide : selects "Expires" "expires" = true)⟩
  simp only [a1, a2, if_true] at h1 h2
  simp only [marshalGetUnmarshal, hpost, unmarshal, decodeLoginResponse, decodeStruct]
  exact ⟨h1, h2⟩

/-- C7, at the login response of the scenario: the token is `tok123` and
the expiry is 2030-01-01T00:00:00Z, 1893456000 seconds after the epoch. -/
theorem login_decodes_token_and_expires_witness :
    (marshalGetUnmarshal sampleLib (sampleWorld .null) loginURL ⟨"a@b.com", "secret"⟩
        LoginResponse.zero).2.Token = "tok123" ∧
    (marshalGetUnmarshal sampleLib (sampleWorld .null) loginURL ⟨"a@b.com", "secret"⟩
        LoginResponse.zero).2.Expires = ⟨1893456000 * 1000000000⟩ :=
  login_decodes_token_and_expires sampleLib (sampleWorld .null) loginURL ⟨"a@b.com", "secret"⟩
    200 [("userId", .str "u1"), ("email", .str "a@b.com"),
      ("expires", .str "2030-01-01T00:00:00Z"), ("token", .str "tok123")]
    "tok123" "2030-01-01T00:00:00Z" ⟨1893456000 * 1000000000⟩
    rfl
    (hasMember_of_split [("userId", .str "u1"), ("email", .str "a@b.com"),
      ("expires", .str "2030-01-01T00:00:00Z")] [] rfl (by decide))
    (hasMember_of_split [("userId", .str "u1"), ("email", .str "a@b.com")]
      [("token", .str "tok123")] rfl (by decide))
    (by decide)

/-! ## A point that the library refuses -/

theorem utf8ByteSize_go_replicate (c : Char) :
    ∀ n : Nat, String.utf8ByteSize.go (List.replicate n c) = n * c.utf8Size := by
  intro n
  induction n with
  | zero => simp [String.utf8ByteSize.go]
  | succ m ih =>
    simp only [List.replicate_succ, String.utf8ByteSize.go, ih]
    ring

theorem longName_size : longName.utf8ByteSize = 70000 := by
  have h := utf8ByteSize_go_replicate 'a' 70000
  have hc : Char.utf8Size 'a' = 1 := by decide
  rw [hc, Nat.mul_one] at h
  exact h

/-- The key length check refuses the location point of a pet whose name is
longer than `MaxKeyLength`. -/
theorem keyLengthCheck_long_name (w : World) (clock : Nat) (D : Pet)
    (h : 65535 < D.Name.utf8ByteSize) :
    keyLengthCheck (locationPoint w clock D) = false := by
  have hne : (D.Name.utf8ByteSize != 0) = true := by
    simp only [bne_iff_ne, ne_eq]
    omega
  simp only [keyLengthCheck, locationPoint, makeKeySize, List.isEmpty_cons, Bool.not_false,
    Bool.true_and, List.all_cons, Bool.and_eq_false_imp, decide_eq_true_eq, decide_eq_false_iff_not]
  intro h1
  exfalso
  by_cases hid : (D.ID.utf8ByteSize != 0) = true
  · simp [List.filter, hid, hne] at h1
    omega
  · simp [List.filter, hid, hne] at h1
    omega

theorem decodeMembers_cons {α : Type} (setField : String → JValue → α → Decoded α)
    (k : String) (v : JValue) (rest : List (String × JValue)) (cur : α) :
    decodeMembers setField ((k, v) :: rest) cur
      = if (setField k v cur).abort then setField k v cur
        else ⟨(decodeMembers setField rest (setField k v cur).value).value,
          (setField k v cur).saved || (decodeMembers setField rest (setField k v cur).value).saved,
          (decodeMembers setField rest (setField k v cur).value).abort⟩ := rfl

/-- A member that its struct ignores can be left out of an object. -/
theorem decodeMembers_skip {α : Type} (setField : String → JValue → α → Decoded α)
    (k : String) (v : JValue) (hskip : ∀ cur, setField k v cur = .ok cur)
    (post : List (String × JValue)) :
    ∀ (pre : List (String × JValue)) (cur : α),
      decodeMembers setField (pre ++ (k, v) :: post) cur
        = decodeMembers setField (pre ++ post) cur := by
  intro pre
  induction pre with
  | nil =>
    intro cur
    simp [decodeMembers, hskip, Decoded.ok]
  | cons m rest ih =>
    intro cur
    obtain ⟨k0, v0⟩ := m
    rw [List.cons_append, List.cons_append, decodeMembers_cons, decodeMembers_cons, ih]

/-- A key that selects `batteryInfo` selects no field of `Pet`. -/
theorem pet_ignores_batteryInfo (lib : Lib) (key : String) (v : JValue)
    (hk : selects "batteryInfo" key = true) (cur : Pet) :
    Pet.setField lib key v cur = .ok cur := by
  have h1 : selects "id" key = false := selects_excl (by decide) hk
  have h2 : selects "name" key = false := selects_excl (by decide) hk
  have h3 : selects "type" key = false := selects_excl (by decide) hk
  have h4 : selects "pod" key = false := selects_excl (by decide) hk
  have h5 : selects "location" key = false := selects_excl (by decide) hk
  simp [Pet.setField, h1, h2, h3, h4, h5]

/-- The loop body ends in a fatal exit when `client.NewPoint` refuses the
location point. -/
theorem petBody_refused (lib : Lib) (w : World) (s : LoopState) (D : Pet)
    (h : lib.newPoint (locationPoint w s.clock D) = false) :
    petBody lib w s (some D) = .fatal "influxdb NewPoint creation failed" := by
  simp [petBody, h]

/-- A poll cycle whose loop over a roster of one pet stops in the loop body. -/
theorem cycle_of_refused (lib : Lib) (w : World) (k : Nat) (token : String) (clock : Nat)
    (pet : Option Pet) (msg : String) (hb : w.newBatchPoints k = true)
    (hg : getUnmarshalAuth lib w k fullURL token FullResponse.zero = (none, ⟨⟨[pet], []⟩⟩))
    (hp : petBody lib w ⟨clock, []⟩ pet = .fatal msg) :
    cycle lib w k token clock
      = ⟨[.get fullURL token, .info "fetched full data", .fatal msg], .fatal msg⟩ := by
  simp [cycle, hb, hg, petsLoop, hp]

/-! ## The points of one device -/

/-- C4. Transforming a device `D` (a pet that is not nil), when
`client.NewPoint` accepts the two points, adds exactly two points to the
batch: first one named "location", then one named "battery", and both carry
the tags `id = D.ID`, `name = D.Name` and no other. -/
theorem transform_yields_location_and_battery (lib : Lib) (w : World) (s : LoopState) (D : Pet)
    (hloc : lib.newPoint (locationPoint w s.clock D) = true)
    (hbat : lib.newPoint (batteryPoint w s.clock D) = true) :
    ∃ loc bat : Point,
      petBody lib w s (some D) = .next ⟨s.clock + 3, s.bp ++ [loc, bat]⟩ ∧
      loc.name = "location" ∧ bat.name = "battery" ∧
      loc.tags = [("id", D.ID), ("name", D.Name)] ∧
      bat.tags = [("id", D.ID), ("name", D.Name)] :=
  ⟨locationPoint w s.clock D, batteryPoint w s.clock D, petBody_accepted lib w s D hloc hbat,
    rfl, rfl, rfl, rfl⟩

/-- C4, as stated, fails for a pet whose name has 70000 bytes: the roster
is fetched and decoded without error, `client.NewPoint` refuses the location
point because its key is longer than 65535 bytes, and the loop body ends in
a fatal exit; the device yields no point and the cycle writes nothing. -/
theorem long_name_yields_no_points :
    getUnmarshalAuth keyCheckingLib (sampleWorld longNameRoster) 0 fullURL "tok123"
      FullResponse.zero = (none, ⟨⟨[some longNamePet], []⟩⟩) ∧
    petBody keyCheckingLib (sampleWorld longNameRoster) ⟨0, []⟩ (some longNamePet)
      = .fatal "influxdb NewPoint creation failed" ∧
    cycle keyCheckingLib (sampleWorld longNameRoster) 0 "tok123" 0
      = ⟨[.get fullURL "tok123", .info "fetched full data",
          .fatal "influxdb NewPoint creation failed"],
         .fatal "influxdb NewPoint creation failed"⟩ := by
  have s1 : selects "pets" "pets" = true := by decide
  have s2 : selects "id" "name" = false := by decide
  have s3 : selects "name" "name" = true := by decide
  have hg : getUnmarshalAuth keyCheckingLib (sampleWorld longNameRoster) 0 fullURL "tok123"
      FullResponse.zero = (none, ⟨⟨[some longNamePet], []⟩⟩) := by
    simp [getUnmarshalAuth, sampleWorld, worldWith, unmarshal, decodeFullResponse, decodeStruct,
      longNameRoster, decodeMembers, FullResponse.setField, s1, decodePets, decodeItems,
      decodePetPtr, Pet.setField, s2, s3, decodeString, Decoded.store, Decoded.ok,
      Decoded.failed, FullResponse.zero, longNamePet]
  have hname : longNamePet.Name = longName := rfl
  have hlen : 65535 < longNamePet.Name.utf8ByteSize := by
    rw [hname, longName_size]
    omega
  have hrej : keyCheckingLib.newPoint
      (locationPoint (sampleWorld longNameRoster) 0 longNamePet) = false := by
    have e : keyCheckingLib.newPoint = keyLengthCheck := rfl
    rw [e]
    exact keyLengthCheck_long_name (sampleWorld longNameRoster) 0 longNamePet hlen
  have hp := petBody_refused keyCheckingLib (sampleWorld longNameRoster) ⟨0, []⟩ longNamePet hrej
  exact ⟨hg, hp,
    cycle_of_refused keyCheckingLib (sampleWorld longNameRoster) 0 "tok123" 0 (some longNamePet)
      "influxdb NewPoint creation failed" rfl hg hp⟩

/-- C4, at the pet of the scenario. -/
theorem transform_yields_location_and_battery_witness :
    sampleLib.newPoint (locationPoint (sampleWorld .null) 0 samplePet) = true ∧
    sampleLib.newPoint (batteryPoint (sampleWorld .null) 0 samplePet) = true ∧
    ∃ loc bat : Point,
      petBody sampleLib (sampleWorld .null) ⟨0, []⟩ (some samplePet)
        = .next ⟨0 + 3, [] ++ [loc, bat]⟩ ∧
      loc.name = "location" ∧ bat.name = "battery" ∧
      loc.tags = [("id", "p1"), ("name", "Rex")] ∧
      bat.tags = [("id", "p1"), ("name", "Rex")] :=
  ⟨rfl, rfl,
    transform_yields_location_and_battery sampleLib (sampleWorld .null) ⟨0, []⟩ samplePet
      rfl rfl⟩

/-- C8. When `client.NewPoint` accepts the two points of a device `D`, the
location point that is added is named "location"; its fields are `latitude`,
`longitude`, `accuracy` and `age` and no other; the first three are the
`Latitude`, `Longitude` and `Accuracy` of `D.Location` as they are; and its
timestamp is a reading of the wall clock taken in the loop body (the second
of the three), whatever `D.Location.Timestamp` is. -/
theorem location_point_passes_values_through (lib : Lib) (w : World) (s : LoopState) (D : Pet)
    (hloc : lib.newPoint (locationPoint w s.clock D) = true)
    (hbat : lib.newPoint (batteryPoint w s.clock D) = true) :
    ∃ loc bat : Point,
      petBody lib w s (some D) = .next ⟨s.clock + 3, s.bp ++ [loc, bat]⟩ ∧
      loc.name = "location" ∧
      loc.fields.map Prod.fst = ["latitude", "longitude", "accuracy", "age"] ∧
      loc.fields.lookup "latitude" = some (.float D.Location.Latitude) ∧
      loc.fields.lookup "longitude" = some (.float D.Location.Longitude) ∧
      loc.fields.lookup "accuracy" = some (.float D.Location.Accuracy) ∧
      loc.time = w.now (s.clock + 1) :=
  ⟨locationPoint w s.clock D, batteryPoint w s.clock D, petBody_accepted lib w s D hloc hbat,
    rfl, rfl, by simp [locationPoint, List.lookup], by simp [locationPoint, List.lookup],
    by simp [locationPoint, List.lookup], rfl⟩

/-- C8, at the pet of the scenario: latitude 1.0, longitude 2.0, accuracy
5.0, and the timestamp is the clock reading 2030-01-01T00:01:01Z, not the
fix time 2030-01-01T00:00:00Z. -/
theorem location_point_passes_values_through_witness :
    sampleLib.newPoint (locationPoint (sampleWorld .null) 0 samplePet) = true ∧
    sampleLib.newPoint (batteryPoint (sampleWorld .null) 0 samplePet) = true ∧
    ∃ loc bat : Point,
      petBody sampleLib (sampleWorld .null) ⟨0, []⟩ (some samplePet)
        = .next ⟨0 + 3, [] ++ [loc, bat]⟩ ∧
      loc.name = "location" ∧
      loc.fields.map Prod.fst = ["latitude", "longitude", "accuracy", "age"] ∧
      loc.fields.lookup "latitude" = some (.float ⟨0x3FF0000000000000⟩) ∧
      loc.fields.lookup "longitude" = some (.float ⟨0x4000000000000000⟩) ∧
      loc.fields.lookup "accuracy" = some (.float ⟨0x4014000000000000⟩) ∧
      loc.time = ⟨1893456061 * 1000000000⟩ :=
  ⟨rfl, rfl,
    location_point_passes_values_through sampleLib (sampleWorld .null) ⟨0, []⟩ samplePet
      rfl rfl⟩

/-- C3, as stated, fails at the pet of the scenario when the clock moves on
by one second between two readings: the age is that of the first reading,
60 seconds, while the timestamp of the point is the second reading, 61
seconds after the fix. -/
theorem location_age_is_not_point_time_minus_fix :
    ∃ loc bat : Point,
      petBody sampleLib (sampleWorld .null) ⟨0, []⟩ (some samplePet) = .next ⟨3, [loc, bat]⟩ ∧
      loc.fields.lookup "age" = some (.seconds 60000000000) ∧
      loc.time.Sub samplePet.Location.Timestamp = 61000000000 ∧
      loc.fields.lookup "age" ≠ some (.seconds (loc.time.Sub samplePet.Location.Timestamp)) :=
  ⟨locationPoint (sampleWorld .null) 0 samplePet, batteryPoint (sampleWorld .null) 0 samplePet,
    by decide, by decide, by decide, by decide⟩

/-- C3, amended. When `client.NewPoint` accepts the two points of a device
`D`, the `age` field of the location point that is added is the duration, in
seconds, from `D.Location.Timestamp` to the reading of the
wall clock that `time.Since` takes while the fields are built; the duration
is the difference in nanoseconds, clamped to the int64 range. The timestamp
of the point is the next reading of the clock. -/
theorem location_age_is_since_fix (lib : Lib) (w : World) (s : LoopState) (D : Pet)
    (hloc : lib.newPoint (locationPoint w s.clock D) = true)
    (hbat : lib.newPoint (batteryPoint w s.clock D) = true) :
    ∃ loc bat : Point,
      petBody lib w s (some D) = .next ⟨s.clock + 3, s.bp ++ [loc, bat]⟩ ∧
      loc.fields.lookup "age" = some (.seconds ((w.now s.clock).Sub D.Location.Timestamp)) ∧
      loc.time = w.now (s.clock + 1) ∧
      (w.now s.clock).Sub D.Location.Timestamp
        = max minDuration
            (min maxDuration ((w.now s.clock).unixNano - D.Location.Timestamp.unixNano)) := by
  refine ⟨locationPoint w s.clock D, batteryPoint w s.clock D, petBody_accepted lib w s D hloc hbat,
    by simp [locationPoint, List.lookup], rfl, ?_⟩
  simp only [Time.Sub, maxDuration, minDuration]
  split_ifs <;> omega

/-- C3 amended, at the pet of the scenario: the age is 60 seconds, the first
reading of the clock being 2030-01-01T00:01:00Z. -/
theorem location_age_is_since_fix_witness :
    sampleLib.newPoint (locationPoint (sampleWorld .null) 0 samplePet) = true ∧
    sampleLib.newPoint (batteryPoint (sampleWorld .null) 0 samplePet) = true ∧
    ∃ loc bat : Point,
      petBody sampleLib (sampleWorld .null) ⟨0, []⟩ (some samplePet)
        = .next ⟨0 + 3, [] ++ [loc, bat]⟩ ∧
      loc.fields.lookup "age" = some (.seconds
        (((sampleWorld .null).now 0).Sub samplePet.Location.Timestamp)) ∧
      loc.time = (sampleWorld .null).now (0 + 1) ∧
      ((sampleWorld .null).now 0).Sub samplePet.Location.Timestamp
        = max minDuration (min maxDuration
            (((sampleWorld .null).now 0).unixNano - samplePet.Location.Timestamp.unixNano)) :=
  ⟨rfl, rfl,
    location_age_is_since_fix sampleLib (sampleWorld .null) ⟨0, []⟩ samplePet rfl rfl⟩


/-! ## The batch of one poll cycle -/

/-- C5. When the roster of a poll cycle is fetched and decoded without
error, none of its `N` pets is nil and `client.NewPoint` accepts their
points, the cycle makes one write. The batch handed to a write call of a
poll cycle always comes from such a roster and holds exactly `2 * N` points:
at positions `2 * i` and `2 * i + 1` the location point and the battery
point of the pet at position `i` of the roster. -/
theorem batch_holds_two_points_per_device (lib : Lib) (w : World) (k : Nat) (token : String)
    (clock : Nat) :
    (∀ (roster : FullResponse) (devices : List Pet),
      w.newBatchPoints k = true →
      getUnmarshalAuth lib w k fullURL token FullResponse.zero = (none, roster) →
      roster.Pets.elems = devices.map some →
      (∀ (i : Nat) (D : Pet), devices[i]? = some D →
        lib.newPoint (locationPoint w (clock + 3 * i) D) = true ∧
        lib.newPoint (batteryPoint w (clock + 3 * i) D) = true) →
      ∃ pts, (cycle lib w k token clock).events.filter Event.isWrite
        = [.write "pod" "s" pts]) ∧
    (∀ (db prec : String) (pts : List Point),
      Event.write db prec pts ∈ (cycle lib w k token clock).events →
      ∃ (roster : FullResponse) (devices : List Pet),
        getUnmarshalAuth lib w k fullURL token FullResponse.zero = (none, roster) ∧
        roster.Pets.elems = devices.map some ∧
        pts.length = 2 * devices.length ∧
        ∀ (i : Nat) (D : Pet), devices[i]? = some D →
          pts[2 * i]? = some (locationPoint w (clock + 3 * i) D) ∧
          pts[2 * i + 1]? = some (batteryPoint w (clock + 3 * i) D)) := by
  constructor
  · intro roster devices hb hg hd hacc
    have hl := petsLoop_accepting lib w devices ⟨clock, []⟩ (by
      intro p hp
      obtain ⟨i, D, hi, hp⟩ := mem_batchOf w devices clock p hp
      rcases hp with rfl | rfl
      · exact (hacc i D hi).1
      · exact (hacc i D hi).2)
    rw [← hd] at hl
    exact ⟨_, cycle_writes_of_next lib w k token clock roster _ hb hg hl⟩
  · intro db prec pts h
    obtain ⟨_, _, _, roster, c, hg, hl⟩ := cycle_write lib w k token clock db prec pts h
    obtain ⟨devices, hd, hs⟩ := petsLoop_next lib w _ _ _ hl
    simp only [List.nil_append, LoopState.mk.injEq] at hs
    obtain ⟨_, rfl⟩ := hs
    exact ⟨roster, devices, hg, hd, batchOf_length w devices clock,
      fun i D hi => batchOf_getElem w devices clock i D hi⟩

/-- C5, for a roster of two pets: there is one write, and the batch
`sampleBatch` that is written has four points, two for each pet. -/
theorem batch_holds_two_points_per_device_witness :
    (∃ pts, (cycle sampleLib (sampleWorld sampleRoster) 0 "tok123" 0).events.filter
      Event.isWrite = [.write "pod" "s" pts]) ∧
    ∃ (roster : FullResponse) (devices : List Pet),
      getUnmarshalAuth sampleLib (sampleWorld sampleRoster) 0 fullURL "tok123" FullResponse.zero
        = (none, roster) ∧
      roster.Pets.elems = devices.map some ∧
      sampleBatch.length = 2 * devices.length ∧
      ∀ (i : Nat) (D : Pet), devices[i]? = some D →
        sampleBatch[2 * i]? = some (locationPoint (sampleWorld sampleRoster) (0 + 3 * i) D) ∧
        sampleBatch[2 * i + 1]? = some (batteryPoint (sampleWorld sampleRoster) (0 + 3 * i) D) :=
  ⟨(batch_holds_two_points_per_device sampleLib (sampleWorld sampleRoster) 0 "tok123" 0).1
      ⟨⟨[some samplePet, some Pet.zero], []⟩⟩ [samplePet, Pet.zero] rfl (by decide) rfl
      (fun _ _ _ => ⟨rfl, rfl⟩),
    (batch_holds_two_points_per_device sampleLib (sampleWorld sampleRoster) 0 "tok123" 0).2
      "pod" "s" sampleBatch (by decide)⟩

/-- C6. In a poll cycle there is at most one write; what is written is the
batch of a loop that went through the whole roster; and when the roster
fetch returns an error, or the loop stops on a point that could not be
built, the cycle ends in a fatal exit and writes nothing. -/
theorem no_partial_batch_is_written (lib : Lib) (w : World) (k : Nat) (token : String)
    (clock : Nat) :
    ((cycle lib w k token clock).events.filter Event.isWrite).length ≤ 1 ∧
    (∀ db prec pts, Event.write db prec pts ∈ (cycle lib w k token clock).events →
      ∃ roster c, getUnmarshalAuth lib w k fullURL token FullResponse.zero = (none, roster) ∧
        petsLoop lib w roster.Pets.elems ⟨clock, []⟩ = .next ⟨c, pts⟩) ∧
    ((getUnmarshalAuth lib w k fullURL token FullResponse.zero).1 ≠ none →
      (cycle lib w k token clock).events.filter Event.isWrite = [] ∧
      ∃ msg, (cycle lib w k token clock).status = .fatal msg) ∧
    (∀ msg, petsLoop lib w (getUnmarshalAuth lib w k fullURL token FullResponse.zero).2.Pets.elems
        ⟨clock, []⟩ = .fatal msg →
      (cycle lib w k token clock).events.filter Event.isWrite = [] ∧
      ∃ msg1, (cycle lib w k token clock).status = .fatal msg1) := by
  refine ⟨cycle_writes_le_one lib w k token clock, ?_, ?_, ?_⟩
  · intro db prec pts h
    obtain ⟨_, _, _, roster, c, hg, hl⟩ := cycle_write lib w k token clock db prec pts h
    exact ⟨roster, c, hg, hl⟩
  · intro herr
    unfold cycle
    by_cases hb : w.newBatchPoints k = true
    · rcases hg : getUnmarshalAuth lib w k fullURL token FullResponse.zero with ⟨err, roster⟩
      rw [hg] at herr
      cases err with
      | none => exact absurd rfl herr
      | some e => simp [hb, List.filter, Event.isWrite]
    · simp [hb, List.filter, Event.isWrite]
  · intro msg hl
    unfold cycle
    by_cases hb : w.newBatchPoints k = true
    · rcases hg : getUnmarshalAuth lib w k fullURL token FullResponse.zero with ⟨err, roster⟩
      rw [hg] at hl
      cases err with
      | some e => simp [hb, List.filter, Event.isWrite]
      | none =>
        simp only at hl
        simp [hb, hl, List.filter, Event.isWrite]
    · simp [hb, List.filter, Event.isWrite]


/-- C9. A poll cycle whose roster was fetched and decoded without error and
has no pets makes exactly one write, of an empty batch. A response object
whose `pets` member is absent, null or the empty array is such a roster. -/
theorem empty_roster_writes_empty_batch (lib : Lib) (w : World) (k : Nat) (token : String)
    (clock : Nat) (hb : w.newBatchPoints k = true) :
    (∀ roster, getUnmarshalAuth lib w k fullURL token FullResponse.zero = (none, roster) →
      roster.Pets.elems = [] →
      (cycle lib w k token clock).events.filter Event.isWrite = [.write "pod" "s" []]) ∧
    (∀ status members, w.get k fullURL token = .answered status (some (.obj members)) →
      (∀ key v, (key, v) ∈ members → selects "pets" key = true → v = .null ∨ v = .arr []) →
      (cycle lib w k token clock).events.filter Event.isWrite = [.write "pod" "s" []]) := by
  have main : ∀ roster, getUnmarshalAuth lib w k fullURL token FullResponse.zero = (none, roster) →
      roster.Pets.elems = [] →
      (cycle lib w k token clock).events.filter Event.isWrite = [.write "pod" "s" []] := by
    intro roster hg hz
    have hl : petsLoop lib w roster.Pets.elems ⟨clock, []⟩ = .next ⟨clock, []⟩ := by
      rw [hz]; rfl
    exact cycle_writes_of_next lib w k token clock roster ⟨clock, []⟩ hb hg hl
  refine ⟨main, ?_⟩
  intro status members hget hm
  refine main FullResponse.zero ?_ rfl
  simp [getUnmarshalAuth, hget, unmarshal, decodeFullResponse, decodeStruct,
    decodeMembers_without_pets lib members hm, Decoded.ok, Decoded.failed]

/-- C9, in the sample world, for the responses with no `pets` member, with
`pets` null and with `pets` empty. -/
theorem empty_roster_writes_empty_batch_witness :
    (sampleWorld (.obj [])).newBatchPoints 0 = true ∧
    (cycle sampleLib (sampleWorld (.obj [])) 0 "tok123" 0).events.filter Event.isWrite
      = [.write "pod" "s" []] ∧
    (cycle sampleLib (sampleWorld (.obj [("pets", .null)])) 0 "tok123" 0).events.filter
      Event.isWrite = [.write "pod" "s" []] ∧
    (cycle sampleLib (sampleWorld (.obj [("pets", .arr [])])) 0 "tok123" 0).events.filter
      Event.isWrite = [.write "pod" "s" []] :=
  ⟨rfl,
    (empty_roster_writes_empty_batch sampleLib (sampleWorld (.obj [])) 0 "tok123" 0 rfl).1
      FullResponse.zero (by decide) rfl,
    (empty_roster_writes_empty_batch sampleLib (sampleWorld (.obj [("pets", .null)])) 0
      "tok123" 0 rfl).2 200 [("pets", .null)] rfl (by simp),
    (empty_roster_writes_empty_batch sampleLib (sampleWorld (.obj [("pets", .arr [])])) 0
      "tok123" 0 rfl).2 200 [("pets", .arr [])] rfl (by simp)⟩

/-- C6, in two sample worlds: with two pets the one write is the whole
batch of four points; when the roster request gets no answer the cycle ends
in a fatal exit without a write. -/
theorem no_partial_batch_is_written_witness :
    (∃ roster c,
      getUnmarshalAuth sampleLib (sampleWorld sampleRoster) 0 fullURL "tok123" FullResponse.zero
        = (none, roster) ∧
      petsLoop sampleLib (sampleWorld sampleRoster) roster.Pets.elems ⟨0, []⟩
        = .next ⟨c, sampleBatch⟩) ∧
    ((cycle sampleLib (worldWith (.answered 200 (some sampleLogin)) .failed) 0 "tok123"
        0).events.filter Event.isWrite = [] ∧
      ∃ msg, (cycle sampleLib (worldWith (.answered 200 (some sampleLogin)) .failed) 0
        "tok123" 0).status = .fatal msg) :=
  ⟨(no_partial_batch_is_written sampleLib (sampleWorld sampleRoster) 0 "tok123" 0).2.1
      "pod" "s" sampleBatch (by decide),
    (no_partial_batch_is_written sampleLib
      (worldWith (.answered 200 (some sampleLogin)) .failed) 0 "tok123" 0).2.2.1 (by decide)⟩


/-- C2, as stated, fails at the pet of the scenario: `batteryInfo` as a
direct member of the pet selects no field of `Pet` and is skipped, and the
battery point that is written has `value` 0 and `remaining` 0, not 80 and
50. -/
theorem flat_batteryInfo_is_not_read :
    (cycle sampleLib (sampleWorld (.obj [("pets", .arr [samplePetFlat])])) 0 "tok123"
        0).events.filter Event.isWrite
      = [.write "pod" "s"
          [⟨"location", [("id", "p1"), ("name", "Rex")],
              [("latitude", .float ⟨0x3FF0000000000000⟩),
               ("longitude", .float ⟨0x4000000000000000⟩),
               ("accuracy", .float ⟨0x4014000000000000⟩), ("age", .seconds 60000000000)],
              ⟨1893456061000000000⟩⟩,
           ⟨"battery", [("id", "p1"), ("name", "Rex")],
              [("value", .int 0), ("remaining", .int 0)], ⟨1893456062000000000⟩⟩]] := by
  decide

/-- C2, amended. Take a poll cycle whose roster request is answered by an
object that `getUnmarshalAuth` decodes without error, with no nil pet, and
such that `client.NewPoint` accepts the points of its pets. If the `pets`
array holds, at position `i`, a pet object that carries its battery as
`pod: {batteryInfo: {value, remaining}}`, the two being number tokens that
read as the integers `n` and `r`, then the cycle makes one write, and the
batch has at position `2 * i + 1` the point named "battery", tagged with the
`id` and `name` of the decoded pet, with the fields `value = n` and
`remaining = r`. A member of the pet object whose key is `batteryInfo`
selects no field of `Pet`: the pet decodes as it does without that member. -/
theorem battery_point_reads_pod_batteryInfo (lib : Lib) (w : World) (k : Nat) (token : String)
    (clock status : Nat) (members : List (String × JValue)) (items : List JValue) (i : Nat)
    (petMembers podMembers batMembers : List (String × JValue))
    (lv lr : String) (n r : Int) (roster : FullResponse) (devices : List Pet)
    (hget : w.get k fullURL token = .answered status (some (.obj members)))
    (hpets : HasMember members "pets" (.arr items))
    (hpet : items[i]? = some (.obj petMembers))
    (hpod : HasMember petMembers "pod" (.obj podMembers))
    (hbat : HasMember podMembers "batteryInfo" (.obj batMembers))
    (hval : HasMember batMembers "value" (.num lv)) (hlv : lib.parseInt lv = some n)
    (hrem : HasMember batMembers "remaining" (.num lr)) (hlr : lib.parseInt lr = some r)
    (hb : w.newBatchPoints k = true)
    (hg : getUnmarshalAuth lib w k fullURL token FullResponse.zero = (none, roster))
    (hd : roster.Pets.elems = devices.map some)
    (hacc : ∀ (j : Nat) (D : Pet), devices[j]? = some D →
      lib.newPoint (locationPoint w (clock + 3 * j) D) = true ∧
      lib.newPoint (batteryPoint w (clock + 3 * j) D) = true) :
    (∃ (pet : Pet) (pts : List Point),
      devices[i]? = some pet ∧
      (cycle lib w k token clock).events.filter Event.isWrite = [.write "pod" "s" pts] ∧
      pts[2 * i + 1]? = some ⟨"battery", [("id", pet.ID), ("name", pet.Name)],
        [("value", .int n), ("remaining", .int r)], w.now (clock + 3 * i + 2)⟩) ∧
    (∀ (key : String) (v : JValue) (pre post : List (String × JValue)) (cur : Pet),
      selects "batteryInfo" key = true →
      decodeMembers (Pet.setField lib) (pre ++ (key, v) :: post) cur
        = decodeMembers (Pet.setField lib) (pre ++ post) cur) := by
  refine ⟨?_, fun key v pre post cur hk =>
    decodeMembers_skip (Pet.setField lib) key v (pet_ignores_batteryInfo lib key v hk) post pre cur⟩
  have hg2 := hg
  simp only [getUnmarshalAuth, hget, unmarshal, decodeFullResponse, decodeStruct,
    Prod.mk.injEq, ite_eq_right_iff, reduceCtorEq, imp_false, Bool.not_eq_true] at hg2
  obtain ⟨hfail, hroster⟩ := hg2
  have hab : (decodeMembers (FullResponse.setField lib) members FullResponse.zero).abort
      = false := by
    simp only [Decoded.failed, Bool.or_eq_false_iff] at hfail
    exact hfail.2
  obtain ⟨pet, hp, hn, hr⟩ := decodeMembers_roster_battery lib members items i petMembers
    podMembers batMembers lv lr n r hpets hpet hpod hbat hval hlv hrem hlr FullResponse.zero hab
  rw [hroster] at hp
  have hdev : devices[i]? = some pet := by
    rw [hd, List.getElem?_map] at hp
    cases hdi : devices[i]? with
    | none => rw [hdi] at hp; simp at hp
    | some D =>
      rw [hdi] at hp
      simp only [Option.map_some', Option.some.injEq] at hp
      rw [hp]
  have hl := petsLoop_accepting lib w devices ⟨clock, []⟩ (by
    intro p hp
    obtain ⟨j, D, hj, hp⟩ := mem_batchOf w devices clock p hp
    rcases hp with rfl | rfl
    · exact (hacc j D hj).1
    · exact (hacc j D hj).2)
  rw [← hd] at hl
  refine ⟨pet, _, hdev, cycle_writes_of_next lib w k token clock roster _ hb hg hl, ?_⟩
  simp only [List.nil_append]
  rw [(batchOf_getElem w devices clock i pet hdev).2]
  simp only [batteryPoint, hn, hr, Nat.add_assoc]

/-- C2 amended, at the roster of two pets whose first pet is the pet of the
scenario with its battery inside `pod`: the cycle writes one batch, and its
battery point for that pet has `value` 80 and `remaining` 50. -/
theorem battery_point_reads_pod_batteryInfo_witness :
    (∃ (pet : Pet) (pts : List Point),
      [samplePet, Pet.zero][0]? = some pet ∧
      (cycle sampleLib (sampleWorld sampleRoster) 0 "tok123" 0).events.filter Event.isWrite
        = [.write "pod" "s" pts] ∧
      pts[2 * 0 + 1]? = some ⟨"battery", [("id", pet.ID), ("name", pet.Name)],
        [("value", .int 80), ("remaining", .int 50)],
        (sampleWorld sampleRoster).now (0 + 3 * 0 + 2)⟩) ∧
    (∀ (key : String) (v : JValue) (pre post : List (String × JValue)) (cur : Pet),
      selects "batteryInfo" key = true →
      decodeMembers (Pet.setField sampleLib) (pre ++ (key, v) :: post) cur
        = decodeMembers (Pet.setField sampleLib) (pre ++ post) cur) :=
  battery_point_reads_pod_batteryInfo sampleLib (sampleWorld sampleRoster) 0 "tok123" 0 200
    [("pets", .arr [samplePetNested, .obj []])] [samplePetNested, .obj []] 0
    [("id", .str "p1"), ("name", .str "Rex"),
      ("pod", .obj [("batteryInfo", .obj [("value", .num "80"), ("remaining", .num "50")])]),
      ("location", sampleLocation)]
    [("batteryInfo", .obj [("value", .num "80"), ("remaining", .num "50")])]
    [("value", .num "80"), ("remaining", .num "50")]
    "80" "50" 80 50 ⟨⟨[some samplePet, some Pet.zero], []⟩⟩ [samplePet, Pet.zero]
    rfl
    (hasMember_of_split [] [] rfl (by decide))
    rfl
    (hasMember_of_split [("id", .str "p1"), ("name", .str "Rex")]
      [("location", sampleLocation)] rfl (by decide))
    (hasMember_of_split [] [] rfl (by decide))
    (hasMember_of_split [] [("remaining", .num "50")] rfl (by decide)) (by decide)
    (hasMember_of_split [("value", .num "80")] [] rfl (by decide)) (by decide)
    rfl (by decide) rfl (fun _ _ _ => ⟨rfl, rfl⟩)

/-! ## Failures that the program does not look at -/

/-- C1 does not hold of the code: `main` drops the error of the login
exchange. When the login request gets no answer, when it is answered 401
with an error object, and when its body is not JSON, `main` goes on into the
poll loop and sends the roster request with an empty token; here the server
answers that with 401 and an error object, which decodes as a roster
without pets, and an empty batch is written. -/
theorem failed_login_still_polls :
    (marshalGetUnmarshal sampleLib (worldWith .failed sampleUnauthorized) loginURL
      ⟨"a@b.com", "secret"⟩ LoginResponse.zero).1 = some .transport ∧
    (main sampleLib (worldWith .failed sampleUnauthorized) 1).events
      = [.post loginURL ⟨"a@b.com", "secret"⟩, .info "got account", .get fullURL "",
         .info "fetched full data", .write "pod" "s" [], .info "wrote data"] ∧
    Event.get fullURL "" ∈ (main sampleLib (worldWith sampleUnauthorized sampleUnauthorized)
      1).events ∧
    Event.get fullURL "" ∈ (main sampleLib (worldWith (.answered 502 none) sampleUnauthorized)
      1).events := by
  decide

/-- C10 does not hold of the code: the roster `{"pets": [null]}` decodes
without error into a slice with one nil pet, and the loop body panics on
it. -/
theorem null_pet_panics :
    getUnmarshalAuth sampleLib (sampleWorld (.obj [("pets", .arr [.null])])) 0 fullURL "tok123"
      FullResponse.zero = (none, ⟨⟨[none], []⟩⟩) ∧
    (cycle sampleLib (sampleWorld (.obj [("pets", .arr [.null])])) 0 "tok123" 0).status
      = .panic := by
  decide

end PodTracker
